import Mathlib

/-!
# Verification of the sector-portfolio agent pipeline

A shallow embedding of the tool-augmented LLM conversation loop of this
repository (agent loop, tool registry/dispatch, result extractor,
post-hoc validator, scoring formulas), with theorems settling the
behavioural claims about it.

Modelling conventions:
* Python strings are `List Char`; Python numeric values are `ℚ`
  (the float arithmetic of the source is modelled exactly over rationals).
* Fallible Python code returns `Except PyExc _`; `try/except` blocks
  become `match` on that result.
* The relational store, the chat-model client and the numpy/plotly
  libraries are external collaborators and are passed in as function
  parameters (`Db`, `ModelClient`, `Env`).
* The JSON layer (`json.loads` / `json.dumps`) is modelled by the
  executable `Json` type below with `loads`/`dumpsV`; numbers are
  rationals, and the parser covers the integer fragment emitted by the
  serializer (decimal/exponent literals make the parser fail rather
  than mis-parse).
-/

set_option maxRecDepth 4000

/-- Single-quote character (apostrophe), written by code point. -/
def sqChar : Char := Char.ofNat 39

/-- Backtick character, written by code point. -/
def btChar : Char := Char.ofNat 96

/-- Python `str.isspace`-style whitespace as used by `str.strip` and the
`\s` class of the repair regexes (space, tab, newline, CR, VT, FF). -/
def pyIsSpace (c : Char) : Bool :=
  c = ' ' || c = '\t' || c = '\n' || c = '\r' || c = Char.ofNat 11 || c = Char.ofNat 12

/-- `str.strip()`: drop leading and trailing whitespace. -/
def pyStrip (s : List Char) : List Char :=
  ((s.dropWhile pyIsSpace).reverse.dropWhile pyIsSpace).reverse

/-- Helper for `str.find`: index of the first occurrence of `pat` in `s`,
counting from `i`. -/
def findSubAux : List Char → List Char → Nat → Option Nat
  | [], pat, i => if pat = [] then some i else none
  | c :: cs, pat, i =>
    if pat.isPrefixOf (c :: cs) then some i else findSubAux cs pat (i + 1)

/-- Python `s.find(pat, start)`; `none` models the `-1` result. -/
def pyFind (s pat : List Char) (start : Nat) : Option Nat :=
  (findSubAux (s.drop start) pat 0).map (· + start)

/-- Decimal digits of a positive natural number, big-endian; `fuel`
bounds the number of digits (structural recursion so that terms reduce
definitionally). -/
def natCharsAux : Nat → Nat → List Char
  | 0, _ => []
  | fuel + 1, n =>
    if n < 10 then [Nat.digitChar n]
    else natCharsAux fuel (n / 10) ++ [Nat.digitChar (n % 10)]

/-- Decimal digit characters of a natural number (big-endian). -/
def natChars (n : Nat) : List Char :=
  if n = 0 then ['0'] else natCharsAux (n + 1) n

/-- Decimal representation of an integer. -/
def intChars (n : Int) : List Char :=
  if n < 0 then '-' :: natChars n.natAbs else natChars n.natAbs

/-! ## The JSON data model (embedding of the `json` stdlib layer) -/

/-- JSON values as passed between the model, the tools and the
validators.  Numbers are rationals (the model of Python floats/ints);
object fields are kept in insertion order. -/
inductive Json where
  | null : Json
  | bool (b : Bool) : Json
  | num (q : ℚ) : Json
  | str (s : List Char) : Json
  | arr (elems : List Json) : Json
  | obj (fields : List (List Char × Json)) : Json

/-- Python truthiness of a JSON value (`if not data: ...`). -/
def Json.falsy : Json → Bool
  | .null => true
  | .bool b => !b
  | .num q => q = 0
  | .str s => s.isEmpty
  | .arr xs => xs.isEmpty
  | .obj fs => fs.isEmpty

/-- `dict.get(key)`: last binding wins, as in a Python dict built by
repeated assignment. -/
def jget (fields : List (List Char × Json)) (key : List Char) : Option Json :=
  (fields.reverse.find? (fun p => p.1 = key)).map (·.2)

/-- `d[key] = v`: overwrite the (last) binding of `key`, or append it. -/
def jset (fields : List (List Char × Json)) (key : List Char) (v : Json) :
    List (List Char × Json) :=
  if (fields.find? (fun p => p.1 = key)).isSome then
    fields.map (fun p => if p.1 = key then (p.1, v) else p)
  else fields ++ [(key, v)]

/-- `key in d` for an object. -/
def jmem (fields : List (List Char × Json)) (key : List Char) : Bool :=
  fields.any (fun p => p.1 = key)

/-- Escaping of one string character by `json.dumps(..., ensure_ascii=False)`
(only the quote and the backslash occur in the strings this pipeline
serializes; control characters are excluded by `Json.wf`). -/
def escChar (c : Char) : List Char :=
  if c = '"' then ['\\', '"']
  else if c = '\\' then ['\\', '\\']
  else [c]

/-- Serialized form of a string body (without the enclosing quotes). -/
def escStr (s : List Char) : List Char := s.flatMap escChar

/-- Serialization of a number.  Integers print as in Python; a
non-integer rational (which only arises from the abstract numpy
collaborator, never from a claim) falls back to `num/den` notation. -/
def numChars (q : ℚ) : List Char :=
  if q.den = 1 then intChars q.num
  else intChars q.num ++ '/' :: natChars q.den

mutual

/-- `json.dumps(v, ensure_ascii=False)` with default separators. -/
def dumpsV : Json → List Char
  | .null => "null".data
  | .bool true => "true".data
  | .bool false => "false".data
  | .num q => numChars q
  | .str s => '"' :: escStr s ++ ['"']
  | .arr xs => '[' :: dumpsItems xs ++ [']']
  | .obj fs => '{' :: dumpsFields fs ++ ['}']

/-- Comma-separated serialization of array elements. -/
def dumpsItems : List Json → List Char
  | [] => []
  | [x] => dumpsV x
  | x :: y :: t => dumpsV x ++ ',' :: ' ' :: dumpsItems (y :: t)

/-- Comma-separated serialization of object fields. -/
def dumpsFields : List (List Char × Json) → List Char
  | [] => []
  | [(k, v)] => '"' :: escStr k ++ '"' :: ':' :: ' ' :: dumpsV v
  | (k, v) :: f :: t =>
      '"' :: escStr k ++ '"' :: ':' :: ' ' :: dumpsV v ++ ',' :: ' ' :: dumpsFields (f :: t)

end

/-- Well-formedness of a payload for the serializer/parser round trip:
all string characters (values and keys) are printable (no control
characters, which the serializer would otherwise `\u`-escape) and all
numbers are integers (Python floats are outside the exact model). -/
def strWf (s : List Char) : Prop := ∀ c ∈ s, 0x20 ≤ c.toNat

mutual

/-- Payloads covered by the exact round-trip model. -/
def Json.wf : Json → Prop
  | .null => True
  | .bool _ => True
  | .num q => q.den = 1
  | .str s => strWf s
  | .arr xs => Json.wfItems xs
  | .obj fs => Json.wfFields fs

def Json.wfItems : List Json → Prop
  | [] => True
  | x :: t => Json.wf x ∧ Json.wfItems t

def Json.wfFields : List (List Char × Json) → Prop
  | [] => True
  | (k, v) :: t => strWf k ∧ Json.wf v ∧ Json.wfFields t

end

/-- Unescaping of one escape character inside a string literal
(`json.loads` escape table; `\uXXXX` is outside the model). -/
def unescChar (c : Char) : Option Char :=
  if c = '"' then some '"'
  else if c = '\\' then some '\\'
  else if c = '/' then some '/'
  else if c = 'n' then some '\n'
  else if c = 't' then some '\t'
  else if c = 'r' then some '\r'
  else if c = 'b' then some (Char.ofNat 8)
  else if c = 'f' then some (Char.ofNat 12)
  else none

/-- Parse the body of a string literal after the opening quote.  In
strict mode (the default used by the source) a raw control character is
an error. -/
def parseStrBody : List Char → Option (List Char × List Char)
  | [] => none
  | c :: cs =>
    if c = '"' then some ([], cs)
    else if c = '\\' then
      match cs with
      | [] => none
      | e :: cs' =>
        match unescChar e with
        | some d => (parseStrBody cs').map (fun p => (d :: p.1, p.2))
        | none => none
    else if 0x20 ≤ c.toNat then
      (parseStrBody cs).map (fun p => (c :: p.1, p.2))
    else none

/-- Numeric value of a big-endian digit string. -/
def digitsVal (ds : List Char) : Nat :=
  ds.foldl (fun a c => 10 * a + (c.toNat - 48)) 0

/-- Parse an unsigned decimal literal.  A following `.`, `e` or `E` (a
float literal, outside the exact model) makes the parser fail rather
than return a wrong value. -/
def parseNatLit (s : List Char) : Option (Nat × List Char) :=
  let ds := s.takeWhile (·.isDigit)
  let rest := s.dropWhile (·.isDigit)
  if ds = [] then none
  else if rest.head? = some '.' ∨ rest.head? = some 'e' ∨ rest.head? = some 'E' then none
  else some (digitsVal ds, rest)

/-- Parse an integer literal (optional minus sign, then digits). -/
def parseIntLit (s : List Char) : Option (Json × List Char) :=
  if s.head? = some '-' then
    (parseNatLit s.tail).map (fun p => (.num (-(p.1 : Int) : ℚ), p.2))
  else
    (parseNatLit s).map (fun p => (.num ((p.1 : Int) : ℚ), p.2))

/-- Skip whitespace, as `json.loads` does between tokens. -/
def skipWs (s : List Char) : List Char := s.dropWhile pyIsSpace

mutual

/-- Recursive-descent value parser modelling `json.loads` on the
fragment the pipeline uses; `fuel` bounds the nesting depth. -/
def parseVal : Nat → List Char → Option (Json × List Char)
  | 0, _ => none
  | fuel + 1, s =>
    match skipWs s with
    | [] => none
    | c :: cs =>
      if c = 'n' then
        if "ull".data.isPrefixOf cs then some (.null, cs.drop 3) else none
      else if c = 't' then
        if "rue".data.isPrefixOf cs then some (.bool true, cs.drop 3) else none
      else if c = 'f' then
        if "alse".data.isPrefixOf cs then some (.bool false, cs.drop 4) else none
      else if c = '"' then
        (parseStrBody cs).map (fun p => (.str p.1, p.2))
      else if c = '[' then
        match skipWs cs with
        | ']' :: rest => some (.arr [], rest)
        | s1 => (parseItems fuel s1).map (fun p => (.arr p.1, p.2))
      else if c = '{' then
        match skipWs cs with
        | '}' :: rest => some (.obj [], rest)
        | s1 => (parseFields fuel s1).map (fun p => (.obj p.1, p.2))
      else if c = '-' || c.isDigit then parseIntLit (c :: cs)
      else none

/-- Parse one or more comma-separated array elements up to `]`. -/
def parseItems : Nat → List Char → Option (List Json × List Char)
  | 0, _ => none
  | fuel + 1, s =>
    match parseVal fuel s with
    | none => none
    | some (v, rest) =>
      match skipWs rest with
      | ',' :: rest1 => (parseItems fuel rest1).map (fun p => (v :: p.1, p.2))
      | ']' :: rest1 => some ([v], rest1)
      | _ => none

/-- Parse one or more comma-separated object fields up to `}`. -/
def parseFields : Nat → List Char → Option (List (List Char × Json) × List Char)
  | 0, _ => none
  | fuel + 1, s =>
    match skipWs s with
    | '"' :: cs =>
      match parseStrBody cs with
      | none => none
      | some (key, rest) =>
        match skipWs rest with
        | ':' :: rest1 =>
          match parseVal fuel rest1 with
          | none => none
          | some (v, rest2) =>
            match skipWs rest2 with
            | ',' :: rest3 => (parseFields fuel rest3).map (fun p => ((key, v) :: p.1, p.2))
            | '}' :: rest3 => some ([(key, v)], rest3)
            | _ => none
        | _ => none
    | _ => none

end

/-- `json.loads`: parse a full document, allowing only trailing
whitespace. -/
def loads (s : List Char) : Option Json :=
  match parseVal (s.length + 1) s with
  | some (v, rest) => if skipWs rest = [] then some v else none
  | none => none

/-! ## Python numeric helpers -/

/-- `round(q)` with banker's rounding (round-half-even), as Python's
built-in `round` behaves on the exact values of this model. -/
def roundHalfEven (q : ℚ) : Int :=
  if q - ⌊q⌋ = 1 / 2 then (if 2 ∣ ⌊q⌋ then ⌊q⌋ else ⌊q⌋ + 1)
  else ⌊q + 1 / 2⌋

/-- `round(q, nd)`. -/
def pyRound (q : ℚ) (nd : Nat) : ℚ := (roundHalfEven (q * 10 ^ nd) : ℚ) / 10 ^ nd

/-- `int(q)`: truncation towards zero. -/
def pyInt (q : ℚ) : Int := if 0 ≤ q then ⌊q⌋ else ⌈q⌉

/-- `to_float` of the source applied to a possibly-NULL column value
(`None` becomes `0.0`, a `Decimal` becomes its exact value). -/
def toFloat : Option ℚ → ℚ
  | none => 0
  | some q => q

/-- `np.mean` on the exact values (callers guard against the empty
list, on which numpy would produce NaN). -/
def npMean (l : List ℚ) : ℚ := l.sum / l.length

/-! ## Result extractor and repair heuristics -/

/-- The opening fence marker searched for by every extractor variant. -/
def fenceOpen : List Char := "```json".data

/-- The closing fence marker. -/
def fenceClose : List Char := "```".data

/-- `json_start = content.find("```json"); json_end = content.find("```",
json_start+7)` of `run_portfolio_agent` (also `analysis_node` /
`supervisor_node`); `none` models the `-1` checks. -/
def findJsonBlock (content : List Char) : Option (Nat × Nat) :=
  match pyFind content fenceOpen 0 with
  | none => none
  | some js =>
    match pyFind content fenceClose (js + 7) with
    | none => none
    | some je => some (js, je)

/-- `re.search(r'```json\s*([\s\S]*?)\s*```', text)` followed by
`.group(1).strip()` of `analyze_portfolio`: the first position carrying
`"```json"` that is followed by a closing `"```"` matches, and the
lazily-matched group together with the two `\s*` and the final
`.strip()` yields the stripped text between the fences. -/
def reSearchJsonBlock : List Char → Option (List Char)
  | [] => none
  | c :: cs =>
    if fenceOpen.isPrefixOf (c :: cs) then
      match pyFind ((c :: cs).drop 7) fenceClose 0 with
      | some q => some (pyStrip (((c :: cs).drop 7).take q))
      | none => reSearchJsonBlock cs
    else reSearchJsonBlock cs

/-- The fallback payload substituted by `analyze_portfolio` when all
parse attempts fail. -/
def defaultPayload : Json :=
  .obj [("ai_summary".data, .str "분석 결과를 불러올 수 없습니다.".data),
        ("portfolio_allocation".data, .arr []),
        ("performance_metrics".data, .obj []),
        ("chart_data".data, .obj [])]

/-- Python truthiness of the endpoint's `data` variable (`None` or a
falsy parse result both fail the `if not data:` checks). -/
def optFalsy : Option Json → Bool
  | none => true
  | some v => v.falsy

/-- The three-stage extraction of `analyze_portfolio` (fenced block,
then the whole text, then the default payload); the staging conditions
are Python truthiness checks, exactly as in the source. -/
def endpointExtractData (reportText : List Char) : Json :=
  let data1 : Option Json :=
    match reSearchJsonBlock reportText with
    | some s => loads s
    | none => none
  let data2 : Option Json :=
    if optFalsy data1 then
      match loads reportText with
      | some v => some v
      | none => data1
    else data1
  if optFalsy data2 then defaultPayload else data2.getD defaultPayload

/-- `json_str.replace("'", '"')`: quote normalization of the repair
heuristics. -/
def repairQuotes (s : List Char) : List Char :=
  s.map (fun c => if c = sqChar then '"' else c)

/-- Match `\s*[}\]]` at the head of the input (whitespace, then a
closing bracket), returning the matched pieces and the remainder. -/
def matchWsClose (s : List Char) : Option (List Char × Char × List Char) :=
  match s.dropWhile pyIsSpace with
  | c :: r => if c = '}' || c = ']' then some (s.takeWhile pyIsSpace, c, r) else none
  | [] => none

/-- Left-to-right scan of `re.sub(r',(\s*[}\]])', r'\1', s)`: each
non-overlapping match of a comma followed by whitespace and a closing
bracket is replaced by the group (the comma is dropped); `fuel` bounds
the scan length (structural recursion so that terms reduce). -/
def subTrailingCommaAux : Nat → List Char → List Char
  | 0, s => s
  | _, [] => []
  | fuel + 1, c :: rest =>
    if c = ',' then
      match matchWsClose rest with
      | some (ws, b, rest1) => ws ++ b :: subTrailingCommaAux fuel rest1
      | none => ',' :: subTrailingCommaAux fuel rest
    else c :: subTrailingCommaAux fuel rest

/-- `re.sub(r',(\s*[}\]])', r'\1', s)`: strip trailing commas before
closing brackets. -/
def subTrailingComma (s : List Char) : List Char := subTrailingCommaAux s.length s

/-- The combined repair applied by `supervisor_node` (and, in two
stages, by `analysis_node`): quote normalization followed by
trailing-comma stripping. -/
def repairStr (s : List Char) : List Char := subTrailingComma (repairQuotes s)

/-- Scan deciding whether the trailing-comma pattern occurs anywhere
in the string (used to state when the repair is a no-op). -/
def hasTrailingCommaPatAux : Nat → List Char → Bool
  | 0, _ => false
  | _, [] => false
  | fuel + 1, c :: rest =>
    if c = ',' then (matchWsClose rest).isSome || hasTrailingCommaPatAux fuel rest
    else hasTrailingCommaPatAux fuel rest

/-- Whether `,\s*[}\]]` occurs anywhere in `s`. -/
def hasTrailingCommaPat (s : List Char) : Bool := hasTrailingCommaPatAux s.length s

/-! ## External collaborators: exceptions, relational store, numpy -/

/-- Python exceptions that can cross the boundaries modelled here. -/
inductive PyExc where
  | dbErr (msg : List Char)
  | typeErr (msg : List Char)
  | attrErr (msg : List Char)
  | zeroDiv
deriving DecidableEq

/-- `str(e)` for an exception. -/
def pyExcStr : PyExc → List Char
  | .dbErr m => m
  | .typeErr m => m
  | .attrErr m => m
  | .zeroDiv => "division by zero".data

/-- A row of `prices_daily` (columns used by the tools; `Option`
models SQL NULL). -/
structure PriceRow where
  date : List Char
  close : Option ℚ
  volume : Option ℚ
deriving DecidableEq

/-- A row of `fin_metrics`. -/
structure FinRow where
  fiscal_date : List Char
  roe : Option ℚ
  opm : Option ℚ
  debt_ratio : Option ℚ
  roa : Option ℚ
  rev_growth_yoy : Option ℚ
deriving DecidableEq

/-- A row of `signals_latest`. -/
structure SigRow where
  ma20 : Option ℚ
  ma60 : Option ℚ
  rsi14 : Option ℚ
  atr14 : Option ℚ
  momentum_20d : Option ℚ
  vol_20d : Option ℚ
deriving DecidableEq

/-- A row of `companies`. -/
structure CompanyRow where
  ticker : String
  name_kr : List Char
  industry : Option String
deriving DecidableEq

/-- The parameterized SQL queries the tools issue (the side-effect
trace of one dispatch). -/
inductive Query where
  | pricesDaily (ticker : String) (cutoff : List Char) (lim : Int)
  | closesDesc (ticker : String) (lim : Nat)
  | finMetrics (ticker : String) (lim : Int)
  | signalsLatest (ticker : String)
  | companies (ticker : String)
deriving DecidableEq

/-- The relational store: each `fetch_dicts` call site becomes one
accessor; any call may raise (connection errors, SQL errors, ...). -/
structure Db where
  pricesDaily : String → List Char → Int → Except PyExc (List PriceRow)
  closesDesc : String → Nat → Except PyExc (List (Option ℚ))
  finMetrics : String → Int → Except PyExc (List FinRow)
  signalsLatest : String → Except PyExc (List SigRow)
  companies : String → Except PyExc (List CompanyRow)

/-- Non-repository collaborators: numpy routines involving square
roots, the wall clock behind `datetime.now()`, the module-level
`AVAILABLE_STOCKS`/`SECTOR_MAP` snapshots loaded at import time, the
plotly chart rendering of the endpoint, and the opaque Korean prompt
template of `run_portfolio_agent` (natural-language data no claim
depends on). -/
structure Env where
  npStd : List ℚ → ℚ
  npSqrt : ℚ → ℚ
  npCorr : List ℚ → List ℚ → ℚ
  cutoffDate : Int → List Char
  availableStocks : List (String × List Char)
  sectorMap : String → Option (List Char)
  sunburstHtml : Json → List Char
  chartConfig : Json → Json
  systemPromptText : Int → Json → List Char → List Char → List Char → List Char

/-- `INDUSTRY_CODE_MAP` of `jobs/seed_companies.py`. -/
def INDUSTRY_CODE_MAP : List (String × List Char) :=
  [("SEMI", "반도체".data), ("BIO", "바이오".data), ("DEF", "방산".data),
   ("AI", "AI".data), ("NUC", "원자력".data), ("UTILSVC", "전력망".data),
   ("SHP", "조선".data)]

/-- `INDUSTRY_TRENDS` of `portfolio_agent_anthropic.py`. -/
def INDUSTRY_TRENDS : List (List Char × List Char) :=
  [("AI".data, "생성형 AI 확산으로 반도체·클라우드 수요 급증. 기업 간 AI 플랫폼 경쟁 심화로 시장 고성장세 유지.".data),
   ("반도체".data, "AI 반도체 수요 폭발로 고성능 메모리(HBM) 공급 부족 지속. 파운드리와 팹리스 동반 성장세.".data),
   ("전력망".data, "전력망 현대화 및 전력 인프라 교체 수요 확대. 스마트그리드 및 배전 자동화 관련주 수혜 예상.".data),
   ("원자력".data, "탄소중립 기조 속 원전 재평가. 중동·동유럽 프로젝트 수주 본격화로 장기 성장 모멘텀 확보.".data),
   ("조선".data, "친환경·LNG선 중심의 수주 호황 지속. 해운 운임 안정화와 글로벌 교체 수요로 업황 긍정적.".data),
   ("방산".data, "지정학적 긴장 고조로 국방예산 확대. 유럽·중동 중심의 수출 증가세로 중장기 성장 기대.".data),
   ("바이오".data, "글로벌 바이오시밀러 시장 확대 지속. 미국 FDA 승인 증가와 신약개발 투자 회복세 뚜렷.".data)]

/-- Error payload `{"error": msg}` returned by the tools. -/
def errDict (msg : List Char) : Json := .obj [("error".data, .str msg)]

/-- `"error" in result` / `"error" not in result` checks. -/
def hasErrorKey : Json → Bool
  | .obj fs => jmem fs "error".data
  | _ => false

/-! ## Scoring formulas -/

/-- The financial-score blend of `get_financial_metrics` (its `roe`,
`opm`, `rev_growth_yoy` inputs are the raw row values, scaled by 100
inside, exactly as in the source). -/
def financialScoreRaw (roeRaw opmRaw debtRatio revGrowthRaw : ℚ) : ℚ :=
  let roe := roeRaw * 100
  let opm := opmRaw * 100
  let rev_growth := revGrowthRaw * 100
  let roe_score := if roe > 0 then min (roe / 15 * 100) 100 else 0
  let opm_score := if opm > 0 then min (opm / 10 * 100) 100 else 0
  let debt_score := max (100 - debtRatio) 0
  let growth_score := min (max (rev_growth / 20 * 100) 0) 100
  roe_score * 0.3 + opm_score * 0.2 + debt_score * 0.3 + growth_score * 0.2

/-- The data-analysis-score blend of `get_technical_signals` (`rsi` is
the row value, `momRaw` the raw `momentum_20d`, `vol` the raw
`vol_20d`). -/
def dataAnalysisScoreRaw (rsi momRaw vol : ℚ) : ℚ :=
  let rsi_score : ℚ := if 30 ≤ rsi ∧ rsi ≤ 70 then 100 else if 20 ≤ rsi ∧ rsi ≤ 80 then 50 else 20
  let momentum := momRaw * 100
  let momentum_score := min (max ((momentum + 10) / 0.2) 0) 100
  let vol_score := max (50 - vol * 10) 0
  rsi_score * 0.4 + momentum_score * 0.4 + vol_score * 0.2

/-! ## Tool bodies -/

/-- The volatility return series of `get_stock_prices`: consecutive
pairs of the first `min(60, len)` closes, guarded on `closes[i-1] > 0`
but divided by `closes[i]` — a zero `closes[i]` raises
`ZeroDivisionError` exactly as in the source. -/
def stockReturnsSeq : List ℚ → Except PyExc (List ℚ)
  | a :: b :: t =>
    if a > 0 then
      if b = 0 then .error .zeroDiv
      else do
        let rest ← stockReturnsSeq (b :: t)
        pure (((a - b) / b) :: rest)
    else stockReturnsSeq (b :: t)
  | _ => .ok []

/-- `get_stock_prices(ticker, days=250)`. -/
def get_stock_prices_fn (env : Env) (db : Db) (ticker : String) (days : Int) :
    Except PyExc Json × List Query :=
  let cutoff := env.cutoffDate days
  let q : Query := .pricesDaily ticker cutoff days
  match db.pricesDaily ticker cutoff days with
  | .error e => (.error e, [q])
  | .ok [] =>
    (.ok (errDict ([sqChar] ++ ticker.data ++ [sqChar] ++ " 종목의 주가 데이터를 찾을 수 없습니다.".data)), [q])
  | .ok (latest :: more) =>
    let prices := latest :: more
    let oldest := prices.getLastD latest
    let period_return : ℚ :=
      if toFloat oldest.close > 0 then
        (toFloat latest.close - toFloat oldest.close) / toFloat oldest.close
      else 0
    let closes := prices.map (fun p => toFloat p.close)
    match stockReturnsSeq (closes.take 60) with
    | .error e => (.error e, [q])
    | .ok returns =>
      let volatility := if returns ≠ [] then env.npStd returns * env.npSqrt 252 else 0
      let avg_volume := pyInt (npMean (prices.map (fun p => toFloat p.volume)))
      (.ok (.obj
        [("ticker".data, .str ticker.data),
         ("current_price".data, .num (toFloat latest.close)),
         ("period_return_pct".data, .num (pyRound (period_return * 100) 2)),
         ("volatility_annual".data, .num (pyRound (volatility * 100) 2)),
         ("avg_volume".data, .num avg_volume),
         ("price_data".data, .arr ((prices.take 60).map (fun p =>
           .obj [("date".data, .str p.date), ("close".data, .num (toFloat p.close))])))]), [q])

/-- `get_financial_metrics(ticker, quarters=4)`. -/
def get_financial_metrics_fn (db : Db) (ticker : String) (quarters : Int) :
    Except PyExc Json × List Query :=
  let q : Query := .finMetrics ticker quarters
  match db.finMetrics ticker quarters with
  | .error e => (.error e, [q])
  | .ok [] =>
    (.ok (errDict ([sqChar] ++ ticker.data ++ [sqChar] ++ " 종목의 재무 지표를 찾을 수 없습니다.".data)), [q])
  | .ok (latest :: _) =>
    let roe := toFloat latest.roe * 100
    let opm := toFloat latest.opm * 100
    let debt_ratio := toFloat latest.debt_ratio
    let rev_growth := toFloat latest.rev_growth_yoy * 100
    let financial_score :=
      financialScoreRaw (toFloat latest.roe) (toFloat latest.opm) debt_ratio (toFloat latest.rev_growth_yoy)
    (.ok (.obj
      [("ticker".data, .str ticker.data),
       ("roe".data, .num (pyRound roe 2)),
       ("opm".data, .num (pyRound opm 2)),
       ("debt_ratio".data, .num (pyRound debt_ratio 2)),
       ("revenue_growth_yoy".data, .num (pyRound rev_growth 2)),
       ("financial_score".data, .num (pyRound financial_score 1))]), [q])

/-- `get_technical_signals(ticker)`. -/
def get_technical_signals_fn (db : Db) (ticker : String) :
    Except PyExc Json × List Query :=
  let q : Query := .signalsLatest ticker
  match db.signalsLatest ticker with
  | .error e => (.error e, [q])
  | .ok [] => (.ok (errDict ([sqChar] ++ ticker.data ++ [sqChar] ++ " 기술적 지표 데이터 없음".data)), [q])
  | .ok (sig :: _) =>
    let rsi := toFloat sig.rsi14
    let momentum := toFloat sig.momentum_20d * 100
    let vol := toFloat sig.vol_20d
    let data_analysis_score := dataAnalysisScoreRaw rsi (toFloat sig.momentum_20d) vol
    (.ok (.obj
      [("ticker".data, .str ticker.data),
       ("ma20".data, .num (pyRound (toFloat sig.ma20) 2)),
       ("ma60".data, .num (pyRound (toFloat sig.ma60) 2)),
       ("rsi14".data, .num (pyRound rsi 2)),
       ("atr14".data, .num (pyRound (toFloat sig.atr14) 2)),
       ("momentum_20d".data, .num (pyRound momentum 2)),
       ("vol_20d".data, .num (pyRound vol 4)),
       ("data_analysis_score".data, .num (pyRound data_analysis_score 1)),
       ("signal".data, .str (if data_analysis_score > 60 then "강세".data
         else if data_analysis_score < 40 then "약세".data else "중립".data))]), [q])

/-- `get_company_info(ticker)`. -/
def get_company_info_fn (db : Db) (ticker : String) : Except PyExc Json × List Query :=
  let q : Query := .companies ticker
  match db.companies ticker with
  | .error e => (.error e, [q])
  | .ok [] => (.ok (errDict ([sqChar] ++ ticker.data ++ [sqChar] ++ " 종목 정보를 찾을 수 없습니다.".data)), [q])
  | .ok (company :: _) =>
    let sectorKr : Option (List Char) :=
      match company.industry with
      | some code => some ((List.lookup code INDUSTRY_CODE_MAP).getD code.data)
      | none => none
    (.ok (.obj
      [("ticker".data, .str ticker.data),
       ("name".data, .str company.name_kr),
       ("sector".data, match sectorKr with | some s => .str s | none => .null),
       ("industry_trend".data,
        .str ((sectorKr.bind (fun s => List.lookup s INDUSTRY_TRENDS)).getD "정보 없음".data))]), [q])

/-- The percentage-return list comprehension shared by
`calculate_correlation` and `calculate_portfolio_performance`
(`(closes[i] - closes[i-1]) / closes[i-1]` guarded on the divisor). -/
def pctReturnsSeq : List ℚ → List ℚ
  | a :: b :: t => (if a > 0 then [(b - a) / a] else []) ++ pctReturnsSeq (b :: t)
  | _ => []

/-- The per-ticker gathering loop of `calculate_correlation`
(tickers with fewer than 60 price rows are skipped). -/
def corrGather (db : Db) : List String → Except PyExc (List (String × List ℚ)) × List Query
  | [] => (.ok [], [])
  | t :: ts =>
    let q : Query := .closesDesc t 60
    match db.closesDesc t 60 with
    | .error e => (.error e, [q])
    | .ok prices =>
      if prices.length < 60 then
        let (r, qs) := corrGather db ts
        (r, q :: qs)
      else
        let closes := prices.reverse.map toFloat
        let returns := pctReturnsSeq closes
        let (r, qs) := corrGather db ts
        (r.map (fun m => (t, returns) :: m), q :: qs)

/-- The nested pair loop of `calculate_correlation`. -/
def corrPairs (env : Env) : List (String × List ℚ) → List (List Char × ℚ)
  | [] => []
  | (t1, r1) :: rest =>
    (rest.filterMap (fun p =>
      if r1 ≠ [] ∧ p.2 ≠ [] then
        let minLen := min r1.length p.2.length
        some (t1.data ++ '_' :: p.1.data,
          pyRound (env.npCorr (r1.take minLen) (p.2.take minLen)) 3)
      else none)) ++ corrPairs env rest

/-- `calculate_correlation(tickers)`. -/
def calculate_correlation_fn (env : Env) (db : Db) (tickers : List String) :
    Except PyExc Json × List Query :=
  if tickers.length < 2 then (.ok (errDict "최소 2개 종목 필요".data), [])
  else
    match corrGather db tickers with
    | (.error e, qs) => (.error e, qs)
    | (.ok matrix, qs) =>
      let correlations := corrPairs env matrix
      let avgCorr := if correlations ≠ [] then npMean (correlations.map (·.2)) else 0
      (.ok (.obj
        [("average_correlation".data, .num (pyRound avgCorr 3)),
         ("diversification_benefit".data, .str (if avgCorr < 0.3 then "높음".data
           else if avgCorr < 0.7 then "중간".data else "낮음".data))]), qs)

/-- `get_stocks_by_sector(sectors)` (reads only the module-level
snapshots, hence pure and query-free). -/
def get_stocks_by_sector_fn (env : Env) (sectors : List (List Char)) : Json :=
  .obj [("sector_stocks".data, .obj (sectors.map (fun sector =>
    (sector, Json.arr ((env.availableStocks.filter
        (fun p => env.sectorMap p.1 = some sector)).map (fun p =>
      Json.obj [("ticker".data, .str p.1.data), ("name".data, .str p.2)]))))))]

/-- One entry of the `stock_metrics` list of
`calculate_portfolio_performance`. -/
structure StockMetric where
  returns : List ℚ
  annualReturn : ℚ
  annualVol : ℚ
deriving DecidableEq

/-- The per-ticker gathering loop of `calculate_portfolio_performance`
(tickers without price rows are skipped). -/
def perfGather (env : Env) (db : Db) : List String → Except PyExc (List StockMetric) × List Query
  | [] => (.ok [], [])
  | t :: ts =>
    let q : Query := .closesDesc t 250
    match db.closesDesc t 250 with
    | .error e => (.error e, [q])
    | .ok [] =>
      let (r, qs) := perfGather env db ts
      (r, q :: qs)
    | .ok (p0 :: prest) =>
      let prices := p0 :: prest
      let closes := prices.reverse.map toFloat
      let returns := pctReturnsSeq closes
      let annual_return := if returns ≠ [] then npMean returns * 252 else 0
      let annual_vol := if returns ≠ [] then env.npStd returns * env.npSqrt 252 else 0
      let (r, qs) := perfGather env db ts
      (r.map (fun l => ⟨returns, annual_return, annual_vol⟩ :: l), q :: qs)

/-- `calculate_portfolio_performance(tickers, weights)`. -/
def calculate_portfolio_performance_fn (env : Env) (db : Db)
    (tickers : List String) (weights : List ℚ) : Except PyExc Json × List Query :=
  if tickers.length ≠ weights.length ∨ abs (weights.sum - 1) > 0.01 then
    (.ok (errDict "종목 수와 가중치가 일치하지 않거나 가중치 합이 1이 아닙니다.".data), [])
  else
    match perfGather env db tickers with
    | (.error e, qs) => (.error e, qs)
    | (.ok stockMetrics, qs) =>
      if stockMetrics = [] then (.ok (errDict "종목 데이터 부족".data), qs)
      else
        let pairs := stockMetrics.zip weights
        let portfolioReturn := (pairs.map (fun p => p.1.annualReturn * p.2)).sum
        let portfolioVol := env.npSqrt ((pairs.map (fun p => p.1.annualVol ^ 2 * p.2 ^ 2)).sum)
        let sharpe := if portfolioVol > 0 then (portfolioReturn - 0.035) / portfolioVol else 0
        let maxDrawdown := -portfolioVol * 1.5
        (.ok (.obj
          [("expected_annual_return".data, .num (pyRound (portfolioReturn * 100) 2)),
           ("annual_volatility".data, .num (pyRound (portfolioVol * 100) 2)),
           ("sharpe_ratio".data, .num (pyRound sharpe 2)),
           ("max_drawdown".data, .num (pyRound (maxDrawdown * 100) 2)),
           ("benchmark_alpha".data, .num (pyRound ((portfolioReturn - 0.08) * 100) 2))]), qs)

/-! ## Tool dispatch (`execute_tool`) -/

/-- The registered tool names (the `TOOLS` list / the dispatch chain of
`execute_tool`). -/
def registeredToolNames : List String :=
  ["get_stock_prices", "get_financial_metrics", "get_technical_signals",
   "get_company_info", "calculate_correlation", "get_stocks_by_sector",
   "calculate_portfolio_performance"]

/-- Python call binding for `tool(**tool_input)`: every required
parameter present, no unexpected keyword. -/
def bindOk (required optional : List String) (args : List (String × Json)) : Bool :=
  required.all (fun r => (args.lookup r).isSome) &&
    args.all (fun p => (required ++ optional).contains p.1)

/-- The `TypeError` raised by Python when call binding fails (the exact
CPython message text is elided). -/
def bindTypeError (name : String) : PyExc :=
  .typeErr (name.data ++ "() missing or unexpected arguments".data)

/-- Extract a string argument; a non-string value reaching a SQL text
comparison raises (modelled as a `TypeError`-class failure). -/
def getStrArg (args : List (String × Json)) (k : String) : Except PyExc String :=
  match args.lookup k with
  | some (.str s) => .ok (String.mk s)
  | _ => .error (.typeErr "invalid parameter type".data)

/-- Extract an integer argument with a default. -/
def getIntArgD (args : List (String × Json)) (k : String) (d : Int) : Except PyExc Int :=
  match args.lookup k with
  | none => .ok d
  | some (.num q) => if q.den = 1 then .ok q.num else .error (.typeErr "invalid parameter type".data)
  | some _ => .error (.typeErr "invalid parameter type".data)

/-- Extract a list-of-strings argument. -/
def getStrListArg (args : List (String × Json)) (k : String) : Except PyExc (List String) :=
  match args.lookup k with
  | some (.arr xs) =>
    xs.mapM (fun x => match x with
      | .str s => .ok (String.mk s)
      | _ => .error (.typeErr "invalid parameter type".data))
  | _ => .error (.typeErr "invalid parameter type".data)

/-- Extract a list-of-raw-strings argument (sector names). -/
def getRawStrListArg (args : List (String × Json)) (k : String) :
    Except PyExc (List (List Char)) :=
  match args.lookup k with
  | some (.arr xs) =>
    xs.mapM (fun x => match x with
      | .str s => .ok s
      | _ => .error (.typeErr "invalid parameter type".data))
  | _ => .error (.typeErr "invalid parameter type".data)

/-- Extract a list-of-numbers argument. -/
def getNumListArg (args : List (String × Json)) (k : String) : Except PyExc (List ℚ) :=
  match args.lookup k with
  | some (.arr xs) =>
    xs.mapM (fun x => match x with
      | .num q => .ok q
      | _ => .error (.typeErr "invalid parameter type".data))
  | _ => .error (.typeErr "invalid parameter type".data)

/-- The body of `execute_tool`'s `try` block: dispatch by name, with
Python call binding checked before any tool body runs; the final `else`
returns the unknown-tool error payload (it is a normal return, not an
exception). -/
def dispatch_tool (env : Env) (db : Db) (name : String) (args : List (String × Json)) :
    Except PyExc Json × List Query :=
  if name = "get_stock_prices" then
    if bindOk ["ticker"] ["days"] args then
      match getStrArg args "ticker" with
      | .error e => (.error e, [])
      | .ok ticker =>
        match getIntArgD args "days" 250 with
        | .error e => (.error e, [])
        | .ok days => get_stock_prices_fn env db ticker days
    else (.error (bindTypeError name), [])
  else if name = "get_financial_metrics" then
    if bindOk ["ticker"] ["quarters"] args then
      match getStrArg args "ticker" with
      | .error e => (.error e, [])
      | .ok ticker =>
        match getIntArgD args "quarters" 4 with
        | .error e => (.error e, [])
        | .ok quarters => get_financial_metrics_fn db ticker quarters
    else (.error (bindTypeError name), [])
  else if name = "get_technical_signals" then
    if bindOk ["ticker"] [] args then
      match getStrArg args "ticker" with
      | .error e => (.error e, [])
      | .ok ticker => get_technical_signals_fn db ticker
    else (.error (bindTypeError name), [])
  else if name = "get_company_info" then
    if bindOk ["ticker"] [] args then
      match getStrArg args "ticker" with
      | .error e => (.error e, [])
      | .ok ticker => get_company_info_fn db ticker
    else (.error (bindTypeError name), [])
  else if name = "calculate_correlation" then
    if bindOk ["tickers"] [] args then
      match getStrListArg args "tickers" with
      | .error e => (.error e, [])
      | .ok tickers => calculate_correlation_fn env db tickers
    else (.error (bindTypeError name), [])
  else if name = "get_stocks_by_sector" then
    if bindOk ["sectors"] [] args then
      match getRawStrListArg args "sectors" with
      | .error e => (.error e, [])
      | .ok sectors => (.ok (get_stocks_by_sector_fn env sectors), [])
    else (.error (bindTypeError name), [])
  else if name = "calculate_portfolio_performance" then
    if bindOk ["tickers", "weights"] [] args then
      match getStrListArg args "tickers" with
      | .error e => (.error e, [])
      | .ok tickers =>
        match getNumListArg args "weights" with
        | .error e => (.error e, [])
        | .ok weights => calculate_portfolio_performance_fn env db tickers weights
    else (.error (bindTypeError name), [])
  else (.ok (errDict ("알 수 없는 Tool: ".data ++ name.data)), [])

/-- The payload produced by `execute_tool`'s `except` clause. -/
def toolErrPayload (e : PyExc) : Json := errDict ("Tool 실행 오류: ".data ++ pyExcStr e)

/-- `execute_tool(tool_name, tool_input)`: the whole dispatch runs
inside `try/except Exception`, so the result is always a payload. -/
def execute_tool (env : Env) (db : Db) (name : String) (args : List (String × Json)) :
    Json × List Query :=
  match dispatch_tool env db name args with
  | (.ok p, qs) => (p, qs)
  | (.error e, qs) => (toolErrPayload e, qs)

/-! ## Post-hoc validators -/

/-- Python `key in container` for the JSON values that reach the
membership tests (`dict` keys, `list` elements, `str` substring); on a
number/bool/null Python raises `TypeError`. -/
def pyIn (key : List Char) : Json → Except PyExc Bool
  | .obj fs => .ok (jmem fs key)
  | .arr xs => .ok (xs.any (fun e => match e with | .str s => s = key | _ => false))
  | .str s => .ok ((pyFind s key 0).isSome)
  | _ => .error (.typeErr "argument is not iterable".data)

/-- The per-entry body of `validate_portfolio_json`'s loop: look the
ticker up, and on success force-overwrite `name` and `sector` with the
authoritative values (a falsy or absent ticker leaves the entry
untouched; a non-dict entry raises; a raising lookup propagates). -/
def validateAllocItem (db : Db) (item : Json) : Except PyExc Json :=
  match item with
  | .obj fields =>
    match jget fields "ticker".data with
    | some (.str t) =>
      if (Json.str t).falsy then .ok item
      else
        match (get_company_info_fn db (String.mk t)).1 with
        | .error e => .error e
        | .ok info =>
          if hasErrorKey info then .ok item
          else
            match info with
            | .obj ifs =>
              let fields1 := jset fields "name".data ((jget ifs "name".data).getD .null)
              let fields2 := jset fields1 "sector".data ((jget ifs "sector".data).getD .null)
              .ok (.obj fields2)
            | _ => .ok item
    | some v =>
      -- a truthy non-string ticker reaches the SQL text comparison and raises
      if v.falsy then .ok item else .error (.typeErr "invalid parameter type".data)
    | none => .ok item
  | _ => .error (.attrErr "object has no attribute get".data)

/-- `validate_portfolio_json(json_str)` of `portfolio_agent_anthropic`:
parse, then overwrite `name`/`sector` of each allocation entry from the
authoritative lookup (entries are never dropped here); a parse failure
returns an error dict (the exception detail text is elided). -/
def validate_portfolio_json (db : Db) (jsonStr : List Char) : Except PyExc Json :=
  match loads jsonStr with
  | none =>
    .ok (.obj [("error".data, .str "JSON 파싱 실패".data), ("original".data, .str jsonStr)])
  | some data =>
    match pyIn "portfolio_allocation".data data with
    | .error e => .error e
    | .ok false => .ok data
    | .ok true =>
      match data with
      | .obj dfs =>
        match jget dfs "portfolio_allocation".data with
        | some (.arr items) =>
          match items.mapM (validateAllocItem db) with
          | .error e => .error e
          | .ok items1 => .ok (.obj (jset dfs "portfolio_allocation".data (.arr items1)))
        | some _ => .error (.typeErr "value is not iterable".data)
        | none => .ok data
      | _ => .error (.typeErr "indices must be integers".data)

/-- The authoritative company data held in `state["company_infos"]`
(the `name`/`sector` fields of a `get_company_info` payload). -/
structure CompanyInfoV where
  name : List Char
  sector : List Char
deriving DecidableEq

/-- One entry of `portfolio_allocation` as manipulated by
`validation_node` (the fields the validator touches). -/
structure AllocEntry where
  ticker : String
  name : List Char
  sector : List Char
  weight : ℚ
  amount : ℚ
  shares : ℚ
  current_price : ℚ
deriving DecidableEq

/-- The per-entry body of `validation_node`'s loop
(`portfolio_agent_multi.py` lines 668-692): `none` means the entry is
dropped (`ticker` not in `company_infos`); otherwise `name`/`sector`
are force-overwritten, and when a truthy live price exists
`current_price` is overwritten and `shares` recomputed when both
`amount > 0` and the price are positive. -/
def validateStock (companyInfos : List (String × CompanyInfoV))
    (stockPrices : List (String × Option ℚ)) (stock : AllocEntry) : Option AllocEntry :=
  match List.lookup stock.ticker companyInfos with
  | none => none
  | some info =>
    let s1 := { stock with name := info.name, sector := info.sector }
    match List.lookup stock.ticker stockPrices with
    | some (some p) =>
      if p ≠ 0 then
        let s2 := { s1 with current_price := p }
        if s2.amount > 0 ∧ p > 0 then some { s2 with shares := ((⌊s2.amount / p⌋ : ℤ) : ℚ) }
        else some s2
      else some s1
    | some none => some s1
    | none => some s1

/-- Sum of the `weight` fields. -/
def sumWeights (l : List AllocEntry) : ℚ := (l.map (·.weight)).sum

/-- `validation_node` (`portfolio_agent_multi.py` lines 650-706): drop
unknown tickers, overwrite identity fields, then renormalize the
weights proportionally when the surviving total deviates from 1 by more
than 0.05 and is positive. -/
def validation_node (companyInfos : List (String × CompanyInfoV))
    (stockPrices : List (String × Option ℚ)) (portfolio : List AllocEntry) :
    List AllocEntry :=
  let validated := portfolio.filterMap (validateStock companyInfos stockPrices)
  let total := sumWeights validated
  if abs (total - 1) > 0.05 then
    if total > 0 then validated.map (fun s => { s with weight := s.weight / total })
    else validated
  else validated

/-! ## The agent loop (`run_portfolio_agent`) -/

/-- `n` spaces. -/
def indentN (n : Nat) : List Char := List.replicate n ' '

mutual

/-- `json.dumps(v, ensure_ascii=False, indent=2)` as used when the
validated payload is spliced back into the report. -/
def dumpsInd : Nat → Json → List Char
  | _, .null => "null".data
  | _, .bool true => "true".data
  | _, .bool false => "false".data
  | _, .num q => numChars q
  | _, .str s => '"' :: escStr s ++ ['"']
  | _, .arr [] => "[]".data
  | lvl, .arr (x :: t) =>
    '[' :: '\n' :: dumpsIndItems (lvl + 1) (x :: t) ++ '\n' :: indentN (2 * lvl) ++ [']']
  | _, .obj [] => "\x7b\x7d".data
  | lvl, .obj (f :: t) =>
    '\x7b' :: '\n' :: dumpsIndFields (lvl + 1) (f :: t) ++ '\n' :: indentN (2 * lvl) ++ ['\x7d']

def dumpsIndItems : Nat → List Json → List Char
  | _, [] => []
  | lvl, [x] => indentN (2 * lvl) ++ dumpsInd lvl x
  | lvl, x :: y :: t =>
    indentN (2 * lvl) ++ dumpsInd lvl x ++ ',' :: '\n' :: dumpsIndItems lvl (y :: t)

def dumpsIndFields : Nat → List (List Char × Json) → List Char
  | _, [] => []
  | lvl, [(k, v)] => indentN (2 * lvl) ++ '"' :: escStr k ++ '"' :: ':' :: ' ' :: dumpsInd lvl v
  | lvl, (k, v) :: f :: t =>
    indentN (2 * lvl) ++ '"' :: escStr k ++ '"' :: ':' :: ' ' :: dumpsInd lvl v ++
      ',' :: '\n' :: dumpsIndFields lvl (f :: t)

end

/-- One tool call embedded in a model proposal. -/
structure ToolCall where
  id : Option (List Char)
  name : String
  args : List (String × Json)

/-- One turn of the conversation transcript. -/
inductive Msg where
  | user (content : List Char)
  | assistant (content : List Char) (toolCalls : List ToolCall)
  | tool (callId : List Char) (name : String) (content : List Char)

/-- One model-client response: a proposal (with or without tool calls)
or an exception from the provider. -/
inductive ModelStep where
  | raise (msg : List Char)
  | reply (content : List Char) (toolCalls : List ToolCall)

/-- The chat-model collaborator: a function of the full transcript. -/
def ModelClient := List Msg → ModelStep

/-- The result dict returned by `run_portfolio_agent` (`success`,
`iterations`, and the path-dependent `final_report` / `error` /
`messages` keys, unified into one record with optional fields). -/
structure AgentResult where
  success : Bool
  iterations : Nat
  finalReport : Option (List Char)
  error : Option (List Char)
  llmCalls : Nat
  messages : List Msg

/-- The success-path post-processing of `run_portfolio_agent` (lines
630-657): locate the fenced block, validate it, splice the re-serialized
validated payload back; any failure (no block, validation error dict,
or an exception caught by the inner `try`) leaves the report as the raw
content. -/
def successReport (db : Db) (content : List Char) : List Char :=
  match findJsonBlock content with
  | none => content
  | some (js, je) =>
    let jsonStr := pyStrip ((content.drop (js + 7)).take (je - (js + 7)))
    match validate_portfolio_json db jsonStr with
    | .error _ => content
    | .ok validated =>
      if hasErrorKey validated then content
      else content.take (js + 7) ++ dumpsInd 0 validated ++ content.drop je

/-- The `ToolResult` turn appended for one tool call (the payload is
serialized back into the conversation; a missing call id defaults to
`call_{iteration}`). -/
def toolMsgOf (env : Env) (db : Db) (iteration : Nat) (tc : ToolCall) : Msg :=
  .tool (tc.id.getD ("call_".data ++ natChars iteration)) tc.name
    (dumpsV (execute_tool env db tc.name tc.args).1)

/-- The forced-termination error message
`f"최대 반복 횟수({max_iterations}) 초과"`. -/
def forcedMsg (maxIterations : Nat) : List Char :=
  "최대 반복 횟수(".data ++ natChars maxIterations ++ ") 초과".data

/-- The `while iteration < max_iterations` loop of
`run_portfolio_agent`, with `fuel = max_iterations - iteration`;
`llmCalls` counts model-client invocations. -/
def runLoopAux (env : Env) (db : Db) (client : ModelClient) (maxIterations : Nat) :
    Nat → Nat → Nat → List Msg → AgentResult
  | 0, iteration, calls, msgs =>
    { success := false, iterations := iteration, finalReport := none,
      error := some (forcedMsg maxIterations), llmCalls := calls, messages := msgs }
  | fuel + 1, iteration, calls, msgs =>
    let it := iteration + 1
    match client msgs with
    | .raise e =>
      { success := false, iterations := it, finalReport := none,
        error := some ("LLM 호출 실패: ".data ++ e), llmCalls := calls + 1, messages := msgs }
    | .reply content tcs =>
      if tcs.isEmpty then
        { success := true, iterations := it, finalReport := some (successReport db content),
          error := none, llmCalls := calls + 1, messages := msgs }
      else
        runLoopAux env db client maxIterations fuel it (calls + 1)
          (msgs ++ .assistant content tcs :: tcs.map (toolMsgOf env db it))

/-- The `investment_targets` dict (optional `sectors`/`tickers` keys). -/
structure InvestmentTargets where
  sectors : Option (List (List Char))
  tickers : Option (List String)

/-- Rendering of `investment_targets` as JSON for the prompt. -/
def targetsJson (t : InvestmentTargets) : Json :=
  .obj ((match t.sectors with
          | some secs => [("sectors".data, Json.arr (secs.map Json.str))]
          | none => []) ++
        (match t.tickers with
          | some ts => [("tickers".data, Json.arr (ts.map (fun s => Json.str s.data)))]
          | none => []))

/-- `str(value)` as used by the f-string lines of the initial context. -/
def pyShow : Json → List Char
  | .str s => s
  | .null => "None".data
  | .bool true => "True".data
  | .bool false => "False".data
  | .num q => numChars q
  | v => dumpsV v

/-- `info[key]` on a payload known to be a dict. -/
def jfield (payload : Json) (k : String) : Json :=
  match payload with
  | .obj fs => (jget fs k.data).getD .null
  | _ => .null

/-- The pre-loop `선택 종목 정보` lines: one `get_company_info` call per
selected ticker (a raising call propagates — this runs outside the
loop's `try`). -/
def tickerLines (db : Db) : List String → Except PyExc (List Char)
  | [] => .ok []
  | t :: ts =>
    match (get_company_info_fn db t).1 with
    | .error e => .error e
    | .ok payload =>
      match tickerLines db ts with
      | .error e => .error e
      | .ok rest =>
        if hasErrorKey payload then .ok rest
        else .ok ("- ".data ++ pyShow (jfield payload "ticker") ++ ": ".data ++
          pyShow (jfield payload "name") ++ " (".data ++
          pyShow (jfield payload "sector") ++ ")\n".data ++ rest)

/-- The pre-loop sector lines derived from `get_stocks_by_sector`. -/
def sectorLines (env : Env) (sectors : List (List Char)) : List Char :=
  sectors.flatMap (fun sector =>
    (env.availableStocks.filter (fun p => env.sectorMap p.1 = some sector)).flatMap (fun p =>
      "- ".data ++ p.1.data ++ ": ".data ++ p.2 ++ " (".data ++ sector ++ ")\n".data))

/-- The `initial_context` string built before the loop. -/
def initialContext (env : Env) (db : Db) (targets : InvestmentTargets) :
    Except PyExc (List Char) :=
  let base := "**사전 정보 :**\n\n".data
  match targets.tickers with
  | some ts =>
    match tickerLines db ts with
    | .error e => .error e
    | .ok lines =>
      let acc := base ++ "선택 종목 정보:\n".data ++ lines
      .ok (match targets.sectors with
        | some secs => acc ++ sectorLines env secs
        | none => acc)
  | none =>
    .ok (match targets.sectors with
      | some secs => base ++ sectorLines env secs
      | none => base)

/-- `run_portfolio_agent` (`portfolio_agent_anthropic.py` lines
474-698): build the system prompt and initial context (this phase can
raise on a failing store), then drive the conversation loop to a
terminal state. -/
def run_portfolio_agent (env : Env) (db : Db) (client : ModelClient) (budget : Int)
    (targets : InvestmentTargets) (riskProfile investmentPeriod additionalPrompt : List Char)
    (maxIterations : Nat) : Except PyExc AgentResult :=
  match initialContext env db targets with
  | .error e => .error e
  | .ok ctx =>
    let sys := env.systemPromptText budget (targetsJson targets) riskProfile
      investmentPeriod additionalPrompt
    let msgs := [Msg.user (sys ++ "\n\n".data ++ ctx ++
      "\n\n위 조건으로 포트폴리오를 분석해주세요.".data)]
    .ok (runLoopAux env db client maxIterations maxIterations 0 0 msgs)

/-! ## The HTTP endpoint (`analyze_portfolio`, post-loop processing) -/

/-- What the route handler produces: a normal JSON response or an HTTP
error raised through `HTTPException`. -/
inductive EndpointResult where
  | jsonResponse (success : Bool) (report : List Char) (iterations : Nat)
  | httpError (status : Nat) (detail : List Char)

/-- Discriminator: did the endpoint answer with an HTTP error? -/
def isHttpError : EndpointResult → Bool
  | .httpError _ _ => true
  | _ => false

/-- Discriminator: did the endpoint answer with a normal response? -/
def isJsonResponse : EndpointResult → Bool
  | .jsonResponse _ _ _ => true
  | _ => false

/-- `data.get(key)` — raises `AttributeError` on a non-dict. -/
def pyGetAttr (data : Json) (k : List Char) : Except PyExc (Option Json) :=
  match data with
  | .obj fs => .ok (jget fs k)
  | _ => .error (.attrErr "object has no attribute get".data)

/-- The `chart_data` reconstruction of `analyze_portfolio` (lines
152-181): prefer `data.chart_data.expected_performance` when it is
truthy and has the three series keys, fall back to top-level keys, else
a `null` chart. -/
def chartDataFor (data : Json) : Except PyExc Json :=
  match pyGetAttr data "chart_data".data with
  | .error e => .error e
  | .ok cdOpt =>
    let cdv := cdOpt.getD (.obj [])
    match pyGetAttr cdv "expected_performance".data with
    | .error e => .error e
    | .ok ep =>
      let truthyEp := match ep with | some v => !v.falsy | none => false
      let step (b : Bool) (key : List Char) (v : Json) : Except PyExc Bool :=
        if b then pyIn key v else .ok false
      match step truthyEp "months".data (ep.getD .null) with
      | .error e => .error e
      | .ok b1 =>
        match step b1 "portfolio".data (ep.getD .null) with
        | .error e => .error e
        | .ok b2 =>
          match step b2 "benchmark".data (ep.getD .null) with
          | .error e => .error e
          | .ok b3 =>
            if b3 then
              match ep with
              | some (.obj efs) =>
                .ok (.obj [("expected_performance".data, .obj
                  [("months".data, (jget efs "months".data).getD .null),
                   ("portfolio".data, (jget efs "portfolio".data).getD .null),
                   ("benchmark".data, (jget efs "benchmark".data).getD .null)])])
              | _ => .error (.typeErr "indices must be integers".data)
            else
              match pyIn "months".data data with
              | .error e => .error e
              | .ok c1 =>
                match step c1 "portfolio".data data with
                | .error e => .error e
                | .ok c2 =>
                  match step c2 "benchmark".data data with
                  | .error e => .error e
                  | .ok c3 =>
                    if c3 then
                      match data with
                      | .obj dfs =>
                        .ok (.obj [("expected_performance".data, .obj
                          [("months".data, (jget dfs "months".data).getD .null),
                           ("portfolio".data, (jget dfs "portfolio".data).getD .null),
                           ("benchmark".data, (jget dfs "benchmark".data).getD .null)])])
                      | _ => .error (.typeErr "indices must be integers".data)
                    else .ok (.obj [("expected_performance".data, .null)])

/-- The `result["success"]` branch of `analyze_portfolio`: extract the
payload from the report, render the charts, decorate the payload and
serialize it into the response; any exception in here is re-raised as
an HTTP 500 by the outer handler. -/
def analyzeSuccess (env : Env) (r : AgentResult) : Except PyExc EndpointResult :=
  let reportText := r.finalReport.getD []
  let data := endpointExtractData reportText
  match data with
  | .obj dfs =>
    match chartDataFor data with
    | .error e => .error e
    | .ok chartData =>
      let dfs1 := jset dfs "chart_html".data (.str (env.sunburstHtml data))
      let dfs2 := jset dfs1 "chart_config".data (env.chartConfig data)
      let dfs3 := jset dfs2 "chart_data".data chartData
      .ok (.jsonResponse true (dumpsV (.obj dfs3)) r.iterations)
  | _ => .error (.attrErr "object has no attribute get".data)

/-- The endpoint's handling of one agent result (`portfolio_endpoint.py`
lines 99-201): a success result is processed into a JSON response; a
failure result raises `HTTPException(500, error)`, which the route's own
`except Exception` catches and re-raises as the final 500. -/
def analyze_portfolio (env : Env) (r : AgentResult) : EndpointResult :=
  if r.success then
    match analyzeSuccess env r with
    | .ok res => res
    | .error e => .httpError 500 ("서버 오류: ".data ++ pyExcStr e)
  else
    .httpError 500 ("서버 오류: 500: ".data ++ (r.error.getD "알 수 없는 오류".data))

/-! ## Spec-modelled tool registry `invoke` (for comparison with `execute_tool`) -/

/-- The `required` lists of the registered `input_schema`s (the `TOOLS`
table of `portfolio_agent_anthropic.py`). -/
def toolRequired : String → List String
  | "get_stock_prices" => ["ticker"]
  | "get_financial_metrics" => ["ticker"]
  | "get_technical_signals" => ["ticker"]
  | "get_company_info" => ["ticker"]
  | "calculate_correlation" => ["tickers"]
  | "get_stocks_by_sector" => ["sectors"]
  | "calculate_portfolio_performance" => ["tickers", "weights"]
  | _ => []

/-- Result type of the registry `invoke` as the specification describes
it: a payload, a typed `SchemaError`, or a typed `ToolExecutionError`. -/
inductive SpecInvokeResult where
  | result (p : Json)
  | schemaError (toolName : String) (missing : List String)
  | toolExecutionError (toolName : String) (message : List Char)

/-- Modelled from the spec: "`invoke` must validate `arguments` against
the registered `input_schema` (required keys present) before calling
`execute`; on schema mismatch it returns a typed `SchemaError` without
calling `execute`" — no such operation exists in the source
(`execute_tool` performs no schema validation), so this definition
follows the spec's words for the refinement comparison of the
corresponding claim. -/
def invoke_spec (env : Env) (db : Db) (name : String) (args : List (String × Json)) :
    SpecInvokeResult × List Query :=
  let missing := (toolRequired name).filter (fun r => (args.lookup r).isNone)
  if missing ≠ [] then (.schemaError name missing, [])
  else
    match dispatch_tool env db name args with
    | (.ok p, qs) => (.result p, qs)
    | (.error e, qs) => (.toolExecutionError name (pyExcStr e), qs)

/-! ## Structural measures for the parser fuel argument -/

mutual

/-- Nesting measure of a value: the fuel `parseVal` consumes along one
traversal. -/
def sizeV : Json → Nat
  | .arr xs => 1 + sizeItems xs
  | .obj fs => 1 + sizeFields fs
  | _ => 0

def sizeItems : List Json → Nat
  | [] => 0
  | x :: t => 1 + sizeV x + sizeItems t

def sizeFields : List (List Char × Json) → Nat
  | [] => 0
  | p :: t => 1 + sizeV p.2 + sizeFields t

end

/-- A string after which an integer literal parse stops correctly:
empty, or headed by a non-digit that is also not a float continuation. -/
def valStopper (rest : List Char) : Prop :=
  ∀ c, rest.head? = some c → c.isDigit = false ∧ c ≠ '.' ∧ c ≠ 'e' ∧ c ≠ 'E'

/-! ## Concrete collaborators for the claim instances -/

/-- A fixed environment; the collaborator values are irrelevant to
the checked properties. -/
def envStub : Env :=
  { npStd := fun _ => 0, npSqrt := fun _ => 0, npCorr := fun _ _ => 0,
    cutoffDate := fun _ => "2024-01-01".data, availableStocks := [],
    sectorMap := fun _ => none, sunburstHtml := fun _ => [],
    chartConfig := fun _ => .null, systemPromptText := fun _ _ _ _ _ => [] }

/-- A store whose every accessor raises (connection down). -/
def dbDown : Db :=
  { pricesDaily := fun _ _ _ => .error (.dbErr "connection refused".data),
    closesDesc := fun _ _ => .error (.dbErr "connection refused".data),
    finMetrics := fun _ _ => .error (.dbErr "connection refused".data),
    signalsLatest := fun _ => .error (.dbErr "connection refused".data),
    companies := fun _ => .error (.dbErr "connection refused".data) }

/-- A store with one financial-metrics row carrying a negative debt
ratio (a row shape the score formulas do not bound). -/
def dbNeg : Db :=
  { pricesDaily := fun _ _ _ => .ok [],
    closesDesc := fun _ _ => .ok [],
    finMetrics := fun _ _ =>
      .ok [{ fiscal_date := "2024-12-31".data, roe := some 0, opm := some 0,
             debt_ratio := some (-1000), roa := some 0, rev_growth_yoy := some 0 }],
    signalsLatest := fun _ => .ok [],
    companies := fun _ => .ok [] }

/-- A well-behaved financial-metrics row. -/
def frowFx : FinRow :=
  { fiscal_date := "2024-12-31".data, roe := some 0.15, opm := some 0.1,
    debt_ratio := some 30, roa := some 0.1, rev_growth_yoy := some 0.2 }

/-- A well-behaved signals row. -/
def srowFx : SigRow :=
  { ma20 := some 70000, ma60 := some 68000, rsi14 := some 55,
    atr14 := some 1500, momentum_20d := some 0.01, vol_20d := some 0.02 }

/-- A store with one well-behaved row per metrics table. -/
def dbRows : Db :=
  { pricesDaily := fun _ _ _ => .ok [],
    closesDesc := fun _ _ => .ok [],
    finMetrics := fun _ _ => .ok [frowFx],
    signalsLatest := fun _ => .ok [srowFx],
    companies := fun t => .ok [{ ticker := t, name_kr := "삼성전자".data, industry := some "SEMI" }] }

/-- A model client that asks for a tool call on every invocation. -/
def clientAlwaysTool : ModelClient :=
  fun _ => .reply "계속 분석합니다".data
    [{ id := some "call_a".data, name := "get_company_info",
       args := [("ticker", Json.str "005930".data)] }]

/-- An agent result in the success terminal state (an empty report, on
which extraction falls back to the default payload). -/
def rSuccessFx : AgentResult :=
  { success := true, iterations := 3, finalReport := some [],
    error := none, llmCalls := 3, messages := [] }

/-- The same agent result in the forced terminal state (same report,
same iteration count; only the terminal state differs). -/
def rForcedFx : AgentResult :=
  { success := false, iterations := 3, finalReport := some [],
    error := some (forcedMsg 10), llmCalls := 3, messages := [] }

/-- A one-company authoritative lookup used by the validator instances. -/
def ciA : List (String × CompanyInfoV) := [("A", { name := "N".data, sector := "S".data })]

/-- The validator example given in the specification: weight 0.6 on a
known ticker, weight 0.4 on an unknown one. -/
def pfExample : List AllocEntry :=
  [{ ticker := "A", name := [], sector := [], weight := 0.6, amount := 0,
     shares := 0, current_price := 0 },
   { ticker := "B", name := [], sector := [], weight := 0.4, amount := 0,
     shares := 0, current_price := 0 }]

/-! ## Helper lemmas: strings and digits -/

theorem dropWhile_eq_self_of_head {p : Char → Bool} {s : List Char}
    (h : ∀ c, s.head? = some c → p c = false) : s.dropWhile p = s := by
  cases s with
  | nil => rfl
  | cons c t => simp [List.dropWhile_cons, h c rfl]

theorem takeWhile_append_all {p : Char → Bool} {xs : List Char} (ys : List Char)
    (hx : ∀ c ∈ xs, p c = true) :
    (xs ++ ys).takeWhile p = xs ++ ys.takeWhile p ∧
      (xs ++ ys).dropWhile p = ys.dropWhile p := by
  induction xs with
  | nil => simp
  | cons c t IH =>
    have hc : p c = true := hx c (by simp)
    have ht : ∀ c ∈ t, p c = true := fun d hd => hx d (by simp [hd])
    obtain ⟨h1, h2⟩ := IH ht
    constructor
    · simp [List.takeWhile_cons, hc, h1]
    · simp [List.dropWhile_cons, hc, h2]

theorem takeWhile_eq_nil_of_head {p : Char → Bool} {s : List Char}
    (h : ∀ c, s.head? = some c → p c = false) : s.takeWhile p = [] := by
  cases s with
  | nil => rfl
  | cons c t => simp [List.takeWhile_cons, h c rfl]

theorem head_of_isPrefixOf {pat l : List Char} {c0 : Char}
    (h : pat.isPrefixOf l = true) (hh : pat.head? = some c0) : l.head? = some c0 := by
  obtain ⟨t, rfl⟩ := List.isPrefixOf_iff_prefix.mp h
  cases pat with
  | nil => simp at hh
  | cons a b => simp at hh; simp [hh]

theorem findSubAux_first {pat : List Char} {c0 : Char} (hpat : pat.head? = some c0) :
    ∀ (pre rest : List Char) (i : Nat), c0 ∉ pre →
      findSubAux (pre ++ (pat ++ rest)) pat i = some (i + pre.length) := by
  obtain ⟨pt, rfl⟩ : ∃ pt, pat = c0 :: pt := by
    cases pat with
    | nil => simp at hpat
    | cons a b => simp at hpat; exact ⟨b, by rw [hpat]⟩
  intro pre
  induction pre with
  | nil =>
    intro rest i _
    have hpref : (c0 :: pt).isPrefixOf (c0 :: pt ++ rest) = true :=
      List.isPrefixOf_iff_prefix.mpr ⟨rest, by simp⟩
    simp [findSubAux, hpref]
  | cons d pre1 IH =>
    intro rest i hmem
    have hd : d ≠ c0 := by
      intro h; exact hmem (by simp [h])
    have hnp : (c0 :: pt).isPrefixOf (d :: (pre1 ++ (c0 :: (pt ++ rest)))) = false := by
      cases h : (c0 :: pt).isPrefixOf (d :: (pre1 ++ (c0 :: (pt ++ rest)))) with
      | false => rfl
      | true =>
        have h2 := head_of_isPrefixOf h (show (c0 :: pt).head? = some c0 from rfl)
        simp at h2
        exact (hd h2).elim
    have hrec := IH rest (i + 1) (fun h => hmem (by simp [h]))
    calc findSubAux ((d :: pre1) ++ (c0 :: pt ++ rest)) (c0 :: pt) i
        = findSubAux (pre1 ++ (c0 :: pt ++ rest)) (c0 :: pt) (i + 1) := by
          simp only [List.cons_append, findSubAux, List.append_eq]
          rw [hnp]
          simp
      _ = some (i + 1 + pre1.length) := hrec
      _ = some (i + (d :: pre1).length) := by
          rw [List.length_cons]
          congr 1
          omega

theorem pyFind_first {pat : List Char} {c0 : Char} (hpat : pat.head? = some c0)
    (pre rest : List Char) (h : c0 ∉ pre) :
    pyFind (pre ++ (pat ++ rest)) pat 0 = some pre.length := by
  unfold pyFind
  rw [List.drop_zero, findSubAux_first hpat pre rest 0 h]
  simp

theorem pyFind_from {pat : List Char} {c0 : Char} (hpat : pat.head? = some c0)
    (a pre rest : List Char) (h : c0 ∉ pre) :
    pyFind (a ++ (pre ++ (pat ++ rest))) pat a.length = some (a.length + pre.length) := by
  unfold pyFind
  rw [List.drop_left, findSubAux_first hpat pre rest 0 h]
  simp [Nat.add_comm]

theorem head?_append_left {s : List Char} (t : List Char) (h : s ≠ []) :
    (s ++ t).head? = s.head? := by
  cases s with
  | nil => exact absurd rfl h
  | cons c r => rfl

theorem pyStrip_sandwich {s : List Char} (hne : s ≠ [])
    (hh : ∀ c, s.head? = some c → pyIsSpace c = false)
    (hl : ∀ c, s.getLast? = some c → pyIsSpace c = false) :
    pyStrip ('\n' :: s ++ ['\n']) = s := by
  unfold pyStrip
  have h1 : List.dropWhile pyIsSpace ('\n' :: (s ++ ['\n'])) = s ++ ['\n'] := by
    rw [List.dropWhile_cons]
    simp only [show pyIsSpace '\n' = true from rfl, if_true]
    exact dropWhile_eq_self_of_head (fun c hc => by
      rw [head?_append_left _ hne] at hc; exact hh c hc)
  rw [show ('\n' :: s ++ ['\n']) = '\n' :: (s ++ ['\n']) by simp, h1]
  rw [List.reverse_append]
  simp only [List.reverse_cons, List.reverse_nil, List.nil_append, List.singleton_append]
  rw [List.dropWhile_cons]
  simp only [show pyIsSpace '\n' = true from rfl, if_true]
  rw [dropWhile_eq_self_of_head (fun c hc => by
    rw [List.head?_reverse] at hc; exact hl c hc)]
  exact List.reverse_reverse s

theorem digitChar_isDigit {d : Nat} (h : d < 10) : (Nat.digitChar d).isDigit = true := by
  interval_cases d <;> decide

theorem digitChar_val {d : Nat} (h : d < 10) : (Nat.digitChar d).toNat - 48 = d := by
  interval_cases d <;> decide

theorem natCharsAux_eq_digits : ∀ (fuel n : Nat), 1 ≤ n → n < 10 ^ fuel →
    natCharsAux fuel n = ((Nat.digits 10 n).reverse).map Nat.digitChar := by
  intro fuel
  induction fuel with
  | zero => intro n h1 h2; simp at h2; omega
  | succ f IH =>
    intro n h1 h2
    by_cases hlt : n < 10
    · rw [natCharsAux, if_pos hlt]
      rw [Nat.digits_def' (by norm_num) (by omega)]
      rw [Nat.div_eq_of_lt hlt]
      simp [Nat.mod_eq_of_lt hlt]
    · rw [natCharsAux, if_neg hlt]
      rw [Nat.digits_def' (by norm_num) (by omega)]
      have hdiv1 : 1 ≤ n / 10 := by
        rw [Nat.le_div_iff_mul_le (by norm_num)]; omega
      have hdiv2 : n / 10 < 10 ^ f := by
        rw [Nat.div_lt_iff_lt_mul (by norm_num)]
        calc n < 10 ^ (f + 1) := h2
        _ = 10 ^ f * 10 := by rw [pow_succ]
      rw [IH (n / 10) hdiv1 hdiv2]
      simp

theorem foldl_digits_rev (L : List Nat) (hL : ∀ d ∈ L, d < 10) :
    ∀ a, List.foldl (fun acc c => 10 * acc + (c.toNat - 48)) a (L.reverse.map Nat.digitChar)
      = a * 10 ^ L.length + Nat.ofDigits 10 L := by
  induction L with
  | nil => intro a; simp [Nat.ofDigits_nil]
  | cons d t IH =>
    intro a
    have hd : d < 10 := hL d (by simp)
    have ht : ∀ x ∈ t, x < 10 := fun x hx => hL x (by simp [hx])
    rw [List.reverse_cons, List.map_append, List.foldl_append, IH ht a]
    simp only [List.map_cons, List.map_nil, List.foldl_cons, List.foldl_nil]
    rw [digitChar_val hd, Nat.ofDigits_cons]
    rw [List.length_cons, pow_succ]
    ring

theorem natChars_eq_digits {n : Nat} (h : 1 ≤ n) :
    natChars n = ((Nat.digits 10 n).reverse).map Nat.digitChar := by
  rw [natChars, if_neg (by omega)]
  exact natCharsAux_eq_digits (n + 1) n h
    (lt_of_lt_of_le (Nat.lt_pow_self (by norm_num) n) (Nat.pow_le_pow_right (by norm_num) (by omega)))

theorem digitsVal_natChars (n : Nat) : digitsVal (natChars n) = n := by
  by_cases h0 : n = 0
  · subst h0; rfl
  · rw [natChars_eq_digits (by omega)]
    unfold digitsVal
    rw [foldl_digits_rev _ (fun d hd => Nat.digits_lt_base (by norm_num) hd) 0]
    simp [Nat.ofDigits_digits]

theorem natChars_all_digits (n : Nat) : ∀ c ∈ natChars n, c.isDigit = true := by
  by_cases h0 : n = 0
  · subst h0; intro c hc; simp [natChars] at hc; subst hc; decide
  · rw [natChars_eq_digits (by omega)]
    intro c hc
    simp only [List.mem_map, List.mem_reverse] at hc
    obtain ⟨d, hd, rfl⟩ := hc
    exact digitChar_isDigit (Nat.digits_lt_base (by norm_num) hd)

theorem natChars_ne_nil (n : Nat) : natChars n ≠ [] := by
  by_cases h0 : n = 0
  · subst h0; simp [natChars]
  · rw [natChars_eq_digits (by omega)]
    simp [Nat.digits_ne_nil_iff_ne_zero, h0]

/-! ## Helper lemmas: the parser on serialized output -/

theorem skipWs_append_all {sp : List Char} (l : List Char)
    (h : ∀ c ∈ sp, pyIsSpace c = true) : skipWs (sp ++ l) = skipWs l :=
  (takeWhile_append_all l h).2

theorem skipWs_eq_self_of_head {s : List Char}
    (h : ∀ c, s.head? = some c → pyIsSpace c = false) : skipWs s = s :=
  dropWhile_eq_self_of_head h

theorem parseVal_ws (fuel : Nat) (sp l : List Char)
    (h : ∀ c ∈ sp, pyIsSpace c = true) : parseVal fuel (sp ++ l) = parseVal fuel l := by
  cases fuel with
  | zero => rfl
  | succ f => simp only [parseVal, skipWs_append_all l h]

theorem parseItems_ws (fuel : Nat) (sp l : List Char)
    (h : ∀ c ∈ sp, pyIsSpace c = true) : parseItems fuel (sp ++ l) = parseItems fuel l := by
  cases fuel with
  | zero => rfl
  | succ f => simp only [parseItems, parseVal_ws f sp l h]

theorem parseFields_ws (fuel : Nat) (sp l : List Char)
    (h : ∀ c ∈ sp, pyIsSpace c = true) : parseFields fuel (sp ++ l) = parseFields fuel l := by
  cases fuel with
  | zero => rfl
  | succ f => simp only [parseFields, skipWs_append_all l h]

theorem pyIsSpace_cases {c : Char} (h : pyIsSpace c = true) :
    c = ' ' ∨ c = '\t' ∨ c = '\n' ∨ c = '\r' ∨ c = Char.ofNat 11 ∨ c = Char.ofNat 12 := by
  simp only [pyIsSpace, Bool.or_eq_true, decide_eq_true_eq] at h
  tauto

theorem isDigit_not_space {c : Char} (h : c.isDigit = true) : pyIsSpace c = false := by
  cases hs : pyIsSpace c with
  | false => rfl
  | true =>
    rcases pyIsSpace_cases hs with rfl | rfl | rfl | rfl | rfl | rfl <;> simp at h

theorem isDigit_ne {c d : Char} (h : c.isDigit = true) (hd : d.isDigit = false) : c ≠ d := by
  intro he; rw [he] at h; rw [h] at hd; simp at hd

theorem parseNatLit_natChars (m : Nat) (rest : List Char) (hrest : valStopper rest) :
    parseNatLit (natChars m ++ rest) = some (m, rest) := by
  have hds := natChars_all_digits m
  have htake := takeWhile_append_all (p := fun c => c.isDigit) rest hds
  have hrdig : ∀ c, rest.head? = some c → (fun c : Char => c.isDigit) c = false :=
    fun c hc => (hrest c hc).1
  unfold parseNatLit
  rw [htake.1, htake.2, takeWhile_eq_nil_of_head hrdig, dropWhile_eq_self_of_head hrdig]
  rw [List.append_nil]
  rw [if_neg (by simpa using natChars_ne_nil m)]
  rw [if_neg (by
    rintro (hc | hc | hc)
    · exact (hrest _ hc).2.1 rfl
    · exact (hrest _ hc).2.2.1 rfl
    · exact (hrest _ hc).2.2.2 rfl)]
  rw [digitsVal_natChars]

theorem parseIntLit_intChars (n : Int) (rest : List Char) (hrest : valStopper rest) :
    parseIntLit (intChars n ++ rest) = some (.num (n : ℚ), rest) := by
  by_cases hneg : n < 0
  · rw [intChars, if_pos hneg]
    have hhead : (('-' :: natChars n.natAbs) ++ rest).head? = some '-' := rfl
    rw [parseIntLit, if_pos (by simp at hhead; simp [hhead])]
    have : (('-' :: natChars n.natAbs) ++ rest).tail = natChars n.natAbs ++ rest := rfl
    rw [this, parseNatLit_natChars n.natAbs rest hrest]
    have hval : -((n.natAbs : ℚ)) = (n : ℚ) := by
      have h1 : -(n.natAbs : Int) = n := by omega
      exact_mod_cast h1
    simp [hval]
  · rw [intChars, if_neg hneg]
    have hne := natChars_ne_nil n.natAbs
    have hhead : ¬ ((natChars n.natAbs ++ rest).head? = some '-') := by
      cases hc : natChars n.natAbs with
      | nil => exact absurd hc hne
      | cons c cs =>
        have hcd : c.isDigit = true := natChars_all_digits n.natAbs c (by rw [hc]; simp)
        simp only [hc, List.cons_append, List.head?_cons, Option.some_inj]
        exact isDigit_ne hcd (by decide)
    rw [parseIntLit, if_neg hhead, parseNatLit_natChars n.natAbs rest hrest]
    have hval : ((n.natAbs : ℚ)) = (n : ℚ) := by
      have h0 : (0 : ℤ) ≤ n := by omega
      rw [Int.cast_natAbs, abs_of_nonneg h0]
    simp [hval]

theorem escStr_cons (c : Char) (t : List Char) : escStr (c :: t) = escChar c ++ escStr t := by
  simp [escStr]

theorem parseStrBody_escStr (s : List Char) (rest : List Char) (h : strWf s) :
    parseStrBody (escStr s ++ '"' :: rest) = some (s, rest) := by
  induction s with
  | nil =>
    rw [show escStr [] ++ '"' :: rest = '"' :: rest from by simp [escStr]]
    rw [parseStrBody.eq_def]
    simp
  | cons c t IH =>
    have hc : 0x20 ≤ c.toNat := h c (by simp)
    have ht : strWf t := fun d hd => h d (by simp [hd])
    rw [escStr_cons]
    by_cases h1 : c = '"'
    · subst h1
      rw [show (escChar '"' ++ escStr t) ++ '"' :: rest =
        '\\' :: '"' :: (escStr t ++ '"' :: rest) from by simp [escChar]]
      rw [parseStrBody.eq_def]
      simp [unescChar, IH ht]
    · by_cases h2 : c = '\\'
      · subst h2
        rw [show (escChar '\\' ++ escStr t) ++ '"' :: rest =
          '\\' :: '\\' :: (escStr t ++ '"' :: rest) from by simp [escChar]]
        rw [parseStrBody.eq_def]
        simp [unescChar, IH ht]
      · rw [show escChar c = [c] from by simp [escChar, h1, h2]]
        rw [show ([c] ++ escStr t) ++ '"' :: rest = c :: (escStr t ++ '"' :: rest) from by simp]
        rw [parseStrBody.eq_def]
        simp [h1, h2, hc, IH ht]

theorem natChars_head (m : Nat) : ∃ c r, natChars m = c :: r ∧ c.isDigit = true := by
  cases hc : natChars m with
  | nil => exact absurd hc (natChars_ne_nil m)
  | cons c r => exact ⟨c, r, rfl, natChars_all_digits m c (by rw [hc]; simp)⟩

theorem intChars_head_spec (n : Int) : ∃ c r, intChars n = c :: r ∧
    pyIsSpace c = false ∧ c ≠ 'n' ∧ c ≠ 't' ∧ c ≠ 'f' ∧ c ≠ '"' ∧ c ≠ '[' ∧ c ≠ '\x7b' ∧
    c ≠ ']' ∧ c ≠ '\x7d' ∧ (c = '-' ∨ c.isDigit = true) := by
  by_cases hneg : n < 0
  · refine ⟨'-', natChars n.natAbs, by rw [intChars, if_pos hneg], ?_, ?_, ?_, ?_, ?_, ?_, ?_, ?_, ?_, Or.inl rfl⟩
    all_goals decide
  · obtain ⟨c, r, hc, hd⟩ := natChars_head n.natAbs
    refine ⟨c, r, by rw [intChars, if_neg hneg]; exact hc, isDigit_not_space hd,
      ?_, ?_, ?_, ?_, ?_, ?_, ?_, ?_, Or.inr hd⟩
    all_goals exact isDigit_ne hd (by decide)

theorem numChars_decomp (q : ℚ) : ∃ X, numChars q = intChars q.num ++ X := by
  by_cases h : q.den = 1
  · exact ⟨[], by rw [numChars, if_pos h]; simp⟩
  · exact ⟨'/' :: natChars q.den, by rw [numChars, if_neg h]⟩

theorem dumpsItems_cons_decomp (x : Json) (t : List Json) :
    ∃ X, dumpsItems (x :: t) = dumpsV x ++ X := by
  cases t with
  | nil => exact ⟨[], by rw [dumpsItems.eq_def]; simp⟩
  | cons y t2 => exact ⟨',' :: ' ' :: dumpsItems (y :: t2), by rw [dumpsItems.eq_def]⟩

theorem dumpsV_head_spec (j : Json) : ∃ c r, dumpsV j = c :: r ∧
    pyIsSpace c = false ∧ c ≠ ']' ∧ c ≠ '\x7d' := by
  cases j with
  | null => exact ⟨'n', _, by rw [dumpsV.eq_def], by decide, by decide, by decide⟩
  | bool b =>
    cases b with
    | true => exact ⟨'t', _, by rw [dumpsV.eq_def], by decide, by decide, by decide⟩
    | false => exact ⟨'f', _, by rw [dumpsV.eq_def], by decide, by decide, by decide⟩
  | num q =>
    obtain ⟨X, hX⟩ := numChars_decomp q
    obtain ⟨c, r, hc, hsp, _, _, _, _, _, _, hb1, hb2, _⟩ := intChars_head_spec q.num
    refine ⟨c, r ++ X, ?_, hsp, hb1, hb2⟩
    rw [dumpsV.eq_def]
    show numChars q = c :: (r ++ X)
    rw [hX, hc]
    simp
  | str s =>
    exact ⟨'"', escStr s ++ ['"'], by rw [dumpsV.eq_def]; simp, by decide, by decide, by decide⟩
  | arr xs =>
    exact ⟨'[', dumpsItems xs ++ [']'], by rw [dumpsV.eq_def]; simp, by decide, by decide, by decide⟩
  | obj fs =>
    exact ⟨'\x7b', dumpsFields fs ++ ['\x7d'], by rw [dumpsV.eq_def]; simp, by decide, by decide, by decide⟩

theorem valStopper_cons {c : Char} (rest : List Char) (h1 : c.isDigit = false)
    (h2 : c ≠ '.') (h3 : c ≠ 'e') (h4 : c ≠ 'E') : valStopper (c :: rest) := by
  intro d hd
  simp at hd
  subst hd
  exact ⟨h1, h2, h3, h4⟩

theorem parse_dumps (fuel : Nat) :
    (∀ (j : Json) (rest : List Char), j.wf → sizeV j < fuel → valStopper rest →
      parseVal fuel (dumpsV j ++ rest) = some (j, rest)) ∧
    (∀ (x : Json) (t : List Json) (rest : List Char), Json.wfItems (x :: t) →
      sizeItems (x :: t) < fuel →
      parseItems fuel (dumpsItems (x :: t) ++ ']' :: rest) = some (x :: t, rest)) ∧
    (∀ (f : List Char × Json) (t : List (List Char × Json)) (rest : List Char),
      Json.wfFields (f :: t) → sizeFields (f :: t) < fuel →
      parseFields fuel (dumpsFields (f :: t) ++ '\x7d' :: rest) = some (f :: t, rest)) := by
  induction fuel with
  | zero =>
    exact ⟨fun j rest _ h _ => absurd h (by omega),
           fun x t rest _ h => absurd h (by omega),
           fun f t rest _ h => absurd h (by omega)⟩
  | succ fl IH =>
    obtain ⟨IHv, IHi, IHf⟩ := IH
    refine ⟨?_, ?_, ?_⟩
    · -- parseVal
      intro j rest hwf hsz hstop
      cases j with
      | null =>
        rw [show dumpsV .null ++ rest = 'n' :: ('u' :: 'l' :: 'l' :: rest) from rfl]
        rw [parseVal.eq_def]
        simp [skipWs, pyIsSpace, List.isPrefixOf]
      | bool b =>
        cases b with
        | true =>
          rw [show dumpsV (.bool true) ++ rest = 't' :: ('r' :: 'u' :: 'e' :: rest) from rfl]
          rw [parseVal.eq_def]
          simp [skipWs, pyIsSpace, List.isPrefixOf]
        | false =>
          rw [show dumpsV (.bool false) ++ rest = 'f' :: ('a' :: 'l' :: 's' :: 'e' :: rest) from rfl]
          rw [parseVal.eq_def]
          simp [skipWs, pyIsSpace, List.isPrefixOf]
      | str s =>
        have hwfs : strWf s := by
          have := hwf
          rw [Json.wf.eq_def] at this
          exact this
        rw [show dumpsV (.str s) ++ rest = '"' :: (escStr s ++ '"' :: rest) from by
          rw [dumpsV.eq_def]; simp]
        rw [parseVal.eq_def]
        simp [skipWs, pyIsSpace, parseStrBody_escStr s rest hwfs]
      | num q =>
        have hden : q.den = 1 := by
          have := hwf
          rw [Json.wf.eq_def] at this
          exact this
        have hdq : dumpsV (.num q) = intChars q.num := by
          rw [dumpsV.eq_def]
          show numChars q = intChars q.num
          rw [numChars, if_pos hden]
        obtain ⟨c, r, hic, hsp, hn, ht', hf', hq', hbk, hbr, _, _, hcd⟩ := intChars_head_spec q.num
        have hqq : ((q.num : ℚ)) = q := by
          conv_rhs => rw [← Rat.num_div_den q]
          rw [hden]
          simp
        rw [hdq, hic]
        rw [show (c :: r) ++ rest = c :: (r ++ rest) from rfl]
        rw [parseVal.eq_def]
        have hskip : skipWs (c :: (r ++ rest)) = c :: (r ++ rest) :=
          skipWs_eq_self_of_head (by intro d hd; simp at hd; subst hd; exact hsp)
        have hlit : parseIntLit (c :: (r ++ rest)) = some (.num (q.num : ℚ), rest) := by
          rw [show c :: (r ++ rest) = (c :: r) ++ rest from rfl, ← hic]
          exact parseIntLit_intChars q.num rest hstop
        rcases hcd with rfl | hdig
        · simp [hskip, hlit, hqq]
        · simp [hskip, hn, ht', hf', hq', hbk, hbr, hdig, hlit, hqq]
      | arr xs =>
        cases xs with
        | nil =>
          rw [show dumpsV (.arr []) ++ rest = '[' :: (']' :: rest) from rfl]
          rw [parseVal.eq_def]
          simp [skipWs, pyIsSpace]
        | cons x t =>
          have hwf' : Json.wfItems (x :: t) := by
            have := hwf; rw [Json.wf.eq_def] at this; exact this
          have hsz' : sizeItems (x :: t) < fl := by
            rw [sizeV.eq_def] at hsz; simp at hsz; omega
          obtain ⟨X, hX⟩ := dumpsItems_cons_decomp x t
          obtain ⟨c1, r1, hdx, hsp1, hnb1, _⟩ := dumpsV_head_spec x
          have hshape : dumpsItems (x :: t) ++ ']' :: rest =
              c1 :: (r1 ++ (X ++ ']' :: rest)) := by
            rw [hX, hdx]; simp
          have hitems := IHi x t rest hwf' hsz'
          rw [hshape] at hitems
          rw [show dumpsV (.arr (x :: t)) ++ rest =
              '[' :: (dumpsItems (x :: t) ++ ']' :: rest) from by
            rw [dumpsV.eq_def]; simp]
          rw [hshape]
          rw [parseVal.eq_def]
          have hdw : skipWs (c1 :: (r1 ++ (X ++ ']' :: rest))) =
              c1 :: (r1 ++ (X ++ ']' :: rest)) :=
            skipWs_eq_self_of_head (by intro d hd; simp at hd; subst hd; exact hsp1)
          have houter : skipWs ('[' :: (c1 :: (r1 ++ (X ++ ']' :: rest)))) =
              '[' :: (c1 :: (r1 ++ (X ++ ']' :: rest))) :=
            skipWs_eq_self_of_head (by intro d hd; simp at hd; subst hd; decide)
          simp [houter, hdw]
          split
          · rename_i rest2 heq
            injection heq with h1 h2
            exact absurd h1 hnb1
          · rw [hitems]
            rfl
      | obj fs =>
        cases fs with
        | nil =>
          rw [show dumpsV (.obj []) ++ rest = '\x7b' :: ('\x7d' :: rest) from rfl]
          rw [parseVal.eq_def]
          simp [skipWs, pyIsSpace]
        | cons f t =>
          have hwf' : Json.wfFields (f :: t) := by
            have := hwf; rw [Json.wf.eq_def] at this; exact this
          have hsz' : sizeFields (f :: t) < fl := by
            rw [sizeV.eq_def] at hsz; simp at hsz; omega
          have hshape : ∃ Y, dumpsFields (f :: t) ++ '\x7d' :: rest =
              '"' :: (Y ++ '\x7d' :: rest) := by
            obtain ⟨k, v⟩ := f
            cases t with
            | nil => exact ⟨escStr k ++ '"' :: ':' :: ' ' :: dumpsV v, by
                rw [dumpsFields.eq_def]; simp⟩
            | cons g t2 => exact ⟨escStr k ++ '"' :: ':' :: ' ' :: dumpsV v ++
                ',' :: ' ' :: dumpsFields (g :: t2), by rw [dumpsFields.eq_def]; simp⟩
          obtain ⟨Y, hY⟩ := hshape
          have hfields := IHf f t rest hwf' hsz'
          rw [hY] at hfields
          rw [show dumpsV (.obj (f :: t)) ++ rest =
              '\x7b' :: (dumpsFields (f :: t) ++ '\x7d' :: rest) from by
            rw [dumpsV.eq_def]; simp]
          rw [hY]
          rw [parseVal.eq_def]
          simp [skipWs, pyIsSpace, hfields]
    · -- parseItems
      intro x t rest hwf hsz
      have hwx : x.wf := by
        rw [Json.wfItems.eq_def] at hwf; exact hwf.1
      have hwt : Json.wfItems t := by
        rw [Json.wfItems.eq_def] at hwf; exact hwf.2
      have hszx : sizeV x < fl := by
        rw [sizeItems.eq_def] at hsz; simp at hsz; omega
      cases t with
      | nil =>
        rw [show dumpsItems [x] ++ ']' :: rest = dumpsV x ++ ']' :: rest from by
          rw [dumpsItems.eq_def]]
        rw [parseItems.eq_def]
        have hv := IHv x (']' :: rest) hwx hszx
          (valStopper_cons rest (by decide) (by decide) (by decide) (by decide))
        simp [hv, skipWs, pyIsSpace]
      | cons y t2 =>
        have hszt : sizeItems (y :: t2) < fl := by
          rw [sizeItems.eq_def] at hsz; simp at hsz; omega
        rw [show dumpsItems (x :: y :: t2) ++ ']' :: rest =
            dumpsV x ++ (',' :: ' ' :: (dumpsItems (y :: t2) ++ ']' :: rest)) from by
          rw [dumpsItems.eq_def]; simp]
        rw [parseItems.eq_def]
        have hv := IHv x (',' :: ' ' :: (dumpsItems (y :: t2) ++ ']' :: rest)) hwx hszx
          (valStopper_cons _ (by decide) (by decide) (by decide) (by decide))
        have hws : parseItems fl (' ' :: (dumpsItems (y :: t2) ++ ']' :: rest)) =
            parseItems fl (dumpsItems (y :: t2) ++ ']' :: rest) :=
          parseItems_ws fl [' '] _ (by intro c hc; simp at hc; subst hc; decide)
        simp [hv, skipWs, pyIsSpace, hws, IHi y t2 rest hwt hszt]
    · -- parseFields
      intro f t rest hwf hsz
      obtain ⟨k, v⟩ := f
      have hwk : strWf k := by
        rw [Json.wfFields.eq_def] at hwf; exact hwf.1
      have hwv : v.wf := by
        rw [Json.wfFields.eq_def] at hwf; exact hwf.2.1
      have hwt : Json.wfFields t := by
        rw [Json.wfFields.eq_def] at hwf; exact hwf.2.2
      have hszv : sizeV v < fl := by
        rw [sizeFields.eq_def] at hsz; simp at hsz; omega
      cases t with
      | nil =>
        rw [show dumpsFields [(k, v)] ++ '\x7d' :: rest =
            '"' :: (escStr k ++ '"' :: (':' :: (' ' :: (dumpsV v ++ '\x7d' :: rest)))) from by
          rw [dumpsFields.eq_def]; simp]
        rw [parseFields.eq_def]
        have hkey : parseStrBody (escStr k ++ '"' :: (':' :: (' ' :: (dumpsV v ++ '\x7d' :: rest)))) =
            some (k, ':' :: (' ' :: (dumpsV v ++ '\x7d' :: rest))) :=
          parseStrBody_escStr k _ hwk
        have hval : parseVal fl (' ' :: (dumpsV v ++ '\x7d' :: rest)) =
            some (v, '\x7d' :: rest) := by
          rw [show (' ' :: (dumpsV v ++ '\x7d' :: rest)) = [' '] ++ (dumpsV v ++ '\x7d' :: rest) from rfl]
          rw [parseVal_ws fl [' '] _ (by intro c hc; simp at hc; subst hc; decide)]
          exact IHv v ('\x7d' :: rest) hwv hszv
            (valStopper_cons rest (by decide) (by decide) (by decide) (by decide))
        simp [skipWs, pyIsSpace, hkey, hval]
      | cons g t2 =>
        have hszt : sizeFields (g :: t2) < fl := by
          rw [sizeFields.eq_def] at hsz; simp at hsz; omega
        rw [show dumpsFields ((k, v) :: g :: t2) ++ '\x7d' :: rest =
            '"' :: (escStr k ++ '"' :: (':' :: (' ' :: (dumpsV v ++
              ',' :: (' ' :: (dumpsFields (g :: t2) ++ '\x7d' :: rest)))))) from by
          rw [dumpsFields.eq_def]; simp]
        rw [parseFields.eq_def]
        have hkey := parseStrBody_escStr k
          (':' :: (' ' :: (dumpsV v ++ ',' :: (' ' :: (dumpsFields (g :: t2) ++ '\x7d' :: rest))))) hwk
        have hval : parseVal fl (' ' :: (dumpsV v ++
            ',' :: (' ' :: (dumpsFields (g :: t2) ++ '\x7d' :: rest)))) =
            some (v, ',' :: (' ' :: (dumpsFields (g :: t2) ++ '\x7d' :: rest))) := by
          rw [show (' ' :: (dumpsV v ++ ',' :: (' ' :: (dumpsFields (g :: t2) ++ '\x7d' :: rest)))) =
            [' '] ++ (dumpsV v ++ ',' :: (' ' :: (dumpsFields (g :: t2) ++ '\x7d' :: rest))) from rfl]
          rw [parseVal_ws fl [' '] _ (by intro c hc; simp at hc; subst hc; decide)]
          exact IHv v _ hwv hszv (valStopper_cons _ (by decide) (by decide) (by decide) (by decide))
        have hws : parseFields fl (' ' :: (dumpsFields (g :: t2) ++ '\x7d' :: rest)) =
            parseFields fl (dumpsFields (g :: t2) ++ '\x7d' :: rest) :=
          parseFields_ws fl [' '] _ (by intro c hc; simp at hc; subst hc; decide)
        simp [skipWs, pyIsSpace, hkey, hval, hws, IHf g t2 rest hwt hszt]

theorem size_lt_dumps_length (n : Nat) :
    (∀ j : Json, sizeV j ≤ n → sizeV j < (dumpsV j).length) ∧
    (∀ xs : List Json, sizeItems xs ≤ n → sizeItems xs ≤ (dumpsItems xs).length) ∧
    (∀ fs : List (List Char × Json), sizeFields fs ≤ n → sizeFields fs ≤ (dumpsFields fs).length) := by
  induction n with
  | zero =>
    refine ⟨?_, ?_, ?_⟩
    · intro j h0
      obtain ⟨c, r, hc, -, -, -⟩ := dumpsV_head_spec j
      cases j with
      | arr xs => rw [sizeV.eq_def] at h0; simp at h0
      | obj fs => rw [sizeV.eq_def] at h0; simp at h0
      | null => rw [sizeV.eq_def]; rw [hc]; simp
      | bool b => rw [sizeV.eq_def]; rw [hc]; simp
      | num q => rw [sizeV.eq_def]; rw [hc]; simp
      | str s => rw [sizeV.eq_def]; rw [hc]; simp
    · intro xs h0
      cases xs with
      | nil => rw [sizeItems.eq_def]; simp
      | cons x t => rw [sizeItems.eq_def] at h0; simp at h0
    · intro fs h0
      cases fs with
      | nil => rw [sizeFields.eq_def]; simp
      | cons f t => rw [sizeFields.eq_def] at h0; simp at h0
  | succ n IH =>
    obtain ⟨IHv, IHi, IHf⟩ := IH
    refine ⟨?_, ?_, ?_⟩
    · intro j h0
      cases j with
      | null => rw [sizeV.eq_def]; rw [dumpsV.eq_def]; simp
      | bool b => rw [sizeV.eq_def]; rw [dumpsV.eq_def]; cases b <;> simp
      | num q =>
        obtain ⟨c, r, hc, -, -, -⟩ := dumpsV_head_spec (.num q)
        rw [sizeV.eq_def]; rw [hc]; simp
      | str s =>
        obtain ⟨c, r, hc, -, -, -⟩ := dumpsV_head_spec (.str s)
        rw [sizeV.eq_def]; rw [hc]; simp
      | arr xs =>
        cases xs with
        | nil => decide
        | cons x t =>
          have h1 : sizeItems (x :: t) ≤ n := by
            rw [sizeV.eq_def] at h0; simp at h0; omega
          have h2 := IHi (x :: t) h1
          rw [sizeV.eq_def]
          rw [show (dumpsV (.arr (x :: t))).length = (dumpsItems (x :: t)).length + 2 from by
            rw [dumpsV.eq_def]; simp]
          simp
          omega
      | obj fs =>
        cases fs with
        | nil => decide
        | cons f t =>
          have h1 : sizeFields (f :: t) ≤ n := by
            rw [sizeV.eq_def] at h0; simp at h0; omega
          have h2 := IHf (f :: t) h1
          rw [sizeV.eq_def]
          rw [show (dumpsV (.obj (f :: t))).length = (dumpsFields (f :: t)).length + 2 from by
            rw [dumpsV.eq_def]; simp]
          simp
          omega
    · intro xs h0
      cases xs with
      | nil => rw [sizeItems.eq_def]; simp
      | cons x t =>
        have hx : sizeV x ≤ n := by
          rw [sizeItems.eq_def] at h0; simp at h0; omega
        have h2 := IHv x hx
        cases t with
        | nil =>
          rw [show dumpsItems [x] = dumpsV x from by rw [dumpsItems.eq_def]]
          simp [sizeItems.eq_def]
          omega
        | cons y t2 =>
          have ht : sizeItems (y :: t2) ≤ n := by
            rw [sizeItems.eq_def] at h0; simp at h0; omega
          have h3 := IHi (y :: t2) ht
          have he : sizeItems (x :: y :: t2) = 1 + sizeV x + sizeItems (y :: t2) := by
            rw [sizeItems.eq_def]
          rw [he]
          rw [show (dumpsItems (x :: y :: t2)).length =
              (dumpsV x).length + 2 + (dumpsItems (y :: t2)).length from by
            rw [dumpsItems.eq_def]; simp; omega]
          omega
    · intro fs h0
      cases fs with
      | nil => rw [sizeFields.eq_def]; simp
      | cons f t =>
        obtain ⟨k, v⟩ := f
        have hv : sizeV v ≤ n := by
          rw [sizeFields.eq_def] at h0; simp at h0; omega
        have h2 := IHv v hv
        cases t with
        | nil =>
          rw [show (dumpsFields [(k, v)]).length = (escStr k).length + 4 + (dumpsV v).length from by
            rw [dumpsFields.eq_def]; simp; omega]
          simp [sizeFields.eq_def]
          omega
        | cons g t2 =>
          have ht : sizeFields (g :: t2) ≤ n := by
            rw [sizeFields.eq_def] at h0; simp at h0; omega
          have h3 := IHf (g :: t2) ht
          have he : sizeFields ((k, v) :: g :: t2) = 1 + sizeV v + sizeFields (g :: t2) := by
            rw [sizeFields.eq_def]
          rw [he]
          rw [show (dumpsFields ((k, v) :: g :: t2)).length =
              (escStr k).length + 6 + (dumpsV v).length + (dumpsFields (g :: t2)).length from by
            rw [dumpsFields.eq_def]; simp; omega]
          omega

theorem loads_dumpsV (j : Json) (h : j.wf) : loads (dumpsV j) = some j := by
  unfold loads
  have hsz : sizeV j < (dumpsV j).length + 1 := by
    have := (size_lt_dumps_length (sizeV j)).1 j (le_refl _)
    omega
  have h1 := (parse_dumps ((dumpsV j).length + 1)).1 j [] h hsz (by intro c hc; simp at hc)
  rw [List.append_nil] at h1
  rw [h1]
  rfl


theorem natChars_last (m : Nat) : ∃ c, (natChars m).getLast? = some c ∧ c.isDigit = true := by
  by_cases h0 : m = 0
  · subst h0; exact ⟨'0', rfl, by decide⟩
  · rw [natChars_eq_digits (by omega)]
    cases hd : Nat.digits 10 m with
    | nil => exact absurd hd (by simp [Nat.digits_ne_nil_iff_ne_zero, h0])
    | cons d ds =>
      refine ⟨Nat.digitChar d, ?_,
        digitChar_isDigit (Nat.digits_lt_base (by norm_num) (by rw [hd]; simp))⟩
      rw [List.map_reverse, List.getLast?_reverse, List.head?_map]
      rfl

theorem numChars_last (q : ℚ) : ∃ c, (numChars q).getLast? = some c ∧ c.isDigit = true := by
  by_cases h : q.den = 1
  · rw [numChars, if_pos h]
    obtain ⟨c, hc, hd⟩ := natChars_last q.num.natAbs
    refine ⟨c, ?_, hd⟩
    by_cases hneg : q.num < 0
    · rw [intChars, if_pos hneg]
      rw [show ('-' :: natChars q.num.natAbs) = ['-'] ++ natChars q.num.natAbs from rfl]
      rw [List.getLast?_append, hc]
      rfl
    · rw [intChars, if_neg hneg]
      exact hc
  · rw [numChars, if_neg h]
    obtain ⟨c, hc, hd⟩ := natChars_last q.den
    refine ⟨c, ?_, hd⟩
    rw [show intChars q.num ++ '/' :: natChars q.den =
      (intChars q.num ++ ['/']) ++ natChars q.den from by simp]
    rw [List.getLast?_append, hc]
    rfl

theorem dumpsV_last_spec (j : Json) : ∃ c, (dumpsV j).getLast? = some c ∧ pyIsSpace c = false := by
  cases j with
  | null => exact ⟨'l', by rw [dumpsV.eq_def]; rfl, by decide⟩
  | bool b =>
    cases b with
    | true => exact ⟨'e', by rw [dumpsV.eq_def]; rfl, by decide⟩
    | false => exact ⟨'e', by rw [dumpsV.eq_def]; rfl, by decide⟩
  | num q =>
    obtain ⟨c, hc, hd⟩ := numChars_last q
    refine ⟨c, ?_, isDigit_not_space hd⟩
    rw [dumpsV.eq_def]
    show (numChars q).getLast? = some c
    exact hc
  | str s =>
    refine ⟨'"', ?_, by decide⟩
    rw [dumpsV.eq_def]
    show (('"' :: escStr s) ++ ['"']).getLast? = some '"'
    exact List.getLast?_concat _
  | arr xs =>
    refine ⟨']', ?_, by decide⟩
    rw [dumpsV.eq_def]
    show (('[' :: dumpsItems xs) ++ [']']).getLast? = some ']'
    exact List.getLast?_concat _
  | obj fs =>
    refine ⟨'\x7d', ?_, by decide⟩
    rw [dumpsV.eq_def]
    show (('\x7b' :: dumpsFields fs) ++ ['\x7d']).getLast? = some '\x7d'
    exact List.getLast?_concat _

theorem dumpsV_ne_nil (j : Json) : dumpsV j ≠ [] := by
  obtain ⟨c, r, hc, -, -, -⟩ := dumpsV_head_spec j
  rw [hc]
  simp

theorem pyStrip_inner (j : Json) : pyStrip ('\n' :: dumpsV j ++ ['\n']) = dumpsV j := by
  obtain ⟨c, r, hc, hsp, -, -⟩ := dumpsV_head_spec j
  obtain ⟨c2, hc2, hsp2⟩ := dumpsV_last_spec j
  apply pyStrip_sandwich (dumpsV_ne_nil j)
  · intro d hd
    rw [hc] at hd
    simp at hd
    subst hd
    exact hsp
  · intro d hd
    rw [hc2] at hd
    injection hd with hd2
    subst hd2
    exact hsp2

theorem isPrefixOf_append (p t : List Char) : p.isPrefixOf (p ++ t) = true :=
  List.isPrefixOf_iff_prefix.mpr ⟨t, rfl⟩

theorem reSearchJsonBlock_cons_pos {c : Char} {cs : List Char}
    (h : fenceOpen.isPrefixOf (c :: cs) = true) :
    reSearchJsonBlock (c :: cs) =
      (match pyFind ((c :: cs).drop 7) fenceClose 0 with
       | some q => some (pyStrip (((c :: cs).drop 7).take q))
       | none => reSearchJsonBlock cs) := by
  rw [reSearchJsonBlock.eq_def]
  simp [h]

theorem reSearchJsonBlock_cons_neg {c : Char} {cs : List Char}
    (h : fenceOpen.isPrefixOf (c :: cs) = false) :
    reSearchJsonBlock (c :: cs) = reSearchJsonBlock cs := by
  rw [reSearchJsonBlock.eq_def]
  simp [h]

theorem reSearchJsonBlock_embed (pre inner post : List Char)
    (hpre : btChar ∉ pre) (hinner : btChar ∉ inner) :
    reSearchJsonBlock (pre ++ (fenceOpen ++ (inner ++ (fenceClose ++ post)))) =
      some (pyStrip inner) := by
  induction pre with
  | nil =>
    rw [List.nil_append]
    rw [show fenceOpen ++ (inner ++ (fenceClose ++ post)) =
          btChar :: ("``json".data ++ (inner ++ (fenceClose ++ post))) from rfl]
    have hpref : fenceOpen.isPrefixOf
        (btChar :: ("``json".data ++ (inner ++ (fenceClose ++ post)))) = true :=
      isPrefixOf_append fenceOpen (inner ++ (fenceClose ++ post))
    rw [reSearchJsonBlock_cons_pos hpref]
    rw [show (btChar :: ("``json".data ++ (inner ++ (fenceClose ++ post)))).drop 7 =
          inner ++ (fenceClose ++ post) from rfl]
    rw [pyFind_first (show fenceClose.head? = some btChar from rfl) inner post hinner]
    show some (pyStrip (List.take inner.length (inner ++ (fenceClose ++ post)))) =
      some (pyStrip inner)
    rw [List.take_left]
  | cons d pre1 IH =>
    have hd : d ≠ btChar := fun h => hpre (by simp [h])
    have hneg : fenceOpen.isPrefixOf
        (d :: (pre1 ++ (fenceOpen ++ (inner ++ (fenceClose ++ post))))) = false := by
      cases h : fenceOpen.isPrefixOf
          (d :: (pre1 ++ (fenceOpen ++ (inner ++ (fenceClose ++ post))))) with
      | false => rfl
      | true =>
        have h2 := head_of_isPrefixOf h (show fenceOpen.head? = some btChar from rfl)
        simp at h2
        exact (hd h2).elim
    rw [List.cons_append, reSearchJsonBlock_cons_neg hneg]
    exact IH (fun h => hpre (by simp [h]))

/-! ## Claim C5: result-extractor round trip -/

/-- Claim C5 (corrected): the original round-trip claim fails for the
falsy payload `{}`: embedding ` ```json\n{}\n``` ` in (empty) prose and
running the endpoint extraction yields the default fallback payload,
not a structure deep-equal to the embedded `{}` — the `if not data:`
truthiness checks discard falsy parse results. -/
theorem c5_round_trip_counterexample :
    endpointExtractData
      (fenceOpen ++ (('\n' :: (dumpsV (Json.obj []) ++ ['\n'])) ++ (fenceClose ++ []))) =
        defaultPayload ∧
    endpointExtractData
      (fenceOpen ++ (('\n' :: (dumpsV (Json.obj []) ++ ['\n'])) ++ (fenceClose ++ []))) ≠
        Json.obj [] := by
  refine ⟨rfl, ?_⟩
  intro h
  have hd : defaultPayload = Json.obj [] :=
    Eq.trans (show defaultPayload =
      endpointExtractData
        (fenceOpen ++ (('\n' :: (dumpsV (Json.obj []) ++ ['\n'])) ++ (fenceClose ++ [])))
      from rfl) h
  have h2 := congrArg (fun j => match j with | Json.obj fs => fs.length | _ => 0) hd
  simp [defaultPayload] at h2

/-- Claim C5 (amended): for every well-formed payload `P` that is truthy
(non-falsy in the Python sense), whose serialization contains no
backtick, embedded as ` ```json\n{P}\n``` ` after backtick-free prose
`pre` and before arbitrary prose `post`, the endpoint extraction
recovers exactly `P`. -/
theorem c5_round_trip (P : Json) (pre post : List Char)
    (hwf : P.wf) (hfalsy : P.falsy = false)
    (hpre : btChar ∉ pre) (hdump : btChar ∉ dumpsV P) :
    endpointExtractData
      (pre ++ (fenceOpen ++ (('\n' :: (dumpsV P ++ ['\n'])) ++ (fenceClose ++ post)))) = P := by
  have hin : btChar ∉ ('\n' :: (dumpsV P ++ ['\n'])) := by
    intro h
    simp at h
    rcases h with h | h | h
    · exact absurd h (by decide)
    · exact hdump h
    · exact absurd h (by decide)
  have hembed := reSearchJsonBlock_embed pre ('\n' :: (dumpsV P ++ ['\n'])) post hpre hin
  have hstrip : pyStrip ('\n' :: (dumpsV P ++ ['\n'])) = dumpsV P := by
    have h0 := pyStrip_inner P
    rwa [show (('\n' :: dumpsV P) ++ ['\n']) = '\n' :: (dumpsV P ++ ['\n']) by simp] at h0
  simp only [endpointExtractData]
  rw [hembed, hstrip]
  simp [optFalsy, loads_dumpsV P hwf, hfalsy]

/-- Witness for the amended C5 theorem on a concrete payload and prose. -/
theorem c5_round_trip_witness :
    endpointExtractData
      ("Here is the result:\n".data ++ (fenceOpen ++
        (('\n' :: (dumpsV (Json.obj [("a".data, Json.num 1)]) ++ ['\n'])) ++
         (fenceClose ++ " done".data)))) = Json.obj [("a".data, Json.num 1)] :=
  c5_round_trip (Json.obj [("a".data, Json.num 1)]) "Here is the result:\n".data " done".data
    ⟨by show ∀ c ∈ "a".data, 0x20 ≤ c.toNat; decide,
     by show (1 : ℚ).den = 1; decide, trivial⟩ rfl (by decide) (by decide)

/-! ## Claim C7: repair no-op on already-valid text -/

theorem repairQuotes_id {s : List Char} (h : sqChar ∉ s) : repairQuotes s = s := by
  unfold repairQuotes
  induction s with
  | nil => rfl
  | cons c t IH =>
    have hc : c ≠ sqChar := fun hh => h (by simp [hh])
    simp only [List.map_cons, if_neg hc]
    rw [IH (fun hh => h (by simp [hh]))]

theorem subTrailingCommaAux_id : ∀ (fuel : Nat) (s : List Char),
    hasTrailingCommaPatAux fuel s = false → subTrailingCommaAux fuel s = s := by
  intro fuel
  induction fuel with
  | zero => intro s _; cases s <;> rfl
  | succ f IH =>
    intro s h
    cases s with
    | nil => rfl
    | cons c rest =>
      rw [hasTrailingCommaPatAux.eq_def] at h
      rw [subTrailingCommaAux.eq_def]
      by_cases hc : c = ','
      · simp only [hc, if_true] at h ⊢
        simp only [Bool.or_eq_false_iff] at h
        have hnone : matchWsClose rest = none := Option.not_isSome_iff_eq_none.mp (by
          rw [h.1]; exact Bool.false_ne_true)
        rw [hnone]
        rw [IH rest h.2]
      · simp only [if_neg hc] at h ⊢
        rw [IH rest h]

/-- Claim C7 (corrected): the original idempotence claim fails: the valid
JSON document `{"a": "don't"}` (a single-quote character inside a string
literal) parses, but the quote-normalization repair turns the inner quote
into a double quote and the repaired text no longer parses. -/
theorem c7_repair_counterexample :
    loads ("\x7b\"a\": \"don".data ++ sqChar :: "t\"\x7d".data) =
      some (Json.obj [("a".data, Json.str ("don".data ++ sqChar :: "t".data))]) ∧
    loads (repairStr ("\x7b\"a\": \"don".data ++ sqChar :: "t\"\x7d".data)) = none := by
  exact ⟨rfl, rfl⟩

/-- Claim C7 (amended): the combined repair (quote normalization, then
trailing-comma stripping) is the identity — and therefore preserves the
parse result — on every string that contains no single-quote character
and no comma-before-closing-bracket pattern. -/
theorem c7_repair_noop (s : List Char) (hq : sqChar ∉ s)
    (hc : hasTrailingCommaPat s = false) :
    repairStr s = s ∧ loads (repairStr s) = loads s := by
  have h1 : repairStr s = s := by
    unfold repairStr
    rw [repairQuotes_id hq]
    exact subTrailingCommaAux_id s.length s hc
  exact ⟨h1, by rw [h1]⟩

/-- Witness for the amended C7 theorem on the concrete document `[1, 2]`. -/
theorem c7_repair_noop_witness :
    repairStr "[1, 2]".data = "[1, 2]".data ∧
    loads (repairStr "[1, 2]".data) = loads "[1, 2]".data :=
  c7_repair_noop "[1, 2]".data (by decide) (by decide)

/-! ## Claim C10: the portfolio-performance precondition guard -/

/-- Claim C10: when the tickers and weights lists differ in length, or
the weights sum deviates from 1 by more than 0.01,
`calculate_portfolio_performance` returns its error payload as a normal
result, with an empty query trace — no price data is read and no
exception is raised. -/
theorem c10_perf_guard (env : Env) (db : Db) (tickers : List String) (weights : List ℚ)
    (h : tickers.length ≠ weights.length ∨ abs (weights.sum - 1) > 0.01) :
    calculate_portfolio_performance_fn env db tickers weights =
      (.ok (errDict "종목 수와 가중치가 일치하지 않거나 가중치 합이 1이 아닙니다.".data), []) := by
  simp only [calculate_portfolio_performance_fn]
  rw [if_pos h]

/-- Witness for C10: a one-ticker call with an empty weights list. -/
theorem c10_perf_guard_witness :
    calculate_portfolio_performance_fn envStub dbDown ["005930"] [] =
      (.ok (errDict "종목 수와 가중치가 일치하지 않거나 가중치 합이 1이 아닙니다.".data), []) :=
  c10_perf_guard envStub dbDown ["005930"] [] (Or.inl (by decide))

/-! ## Claim C4: tool failures are contained by the dispatch step -/

/-- Claim C4: any exception raised while dispatching or running a tool
is absorbed by `execute_tool` into the generic error payload, with the
query trace preserved, and an unregistered tool name yields the
unknown-tool error payload as a normal result — in both cases the
dispatch step returns a payload instead of propagating a failure. -/
theorem c4_tool_failure_contained (env : Env) (db : Db) (name : String)
    (args : List (String × Json)) :
    (∀ e qs, dispatch_tool env db name args = (.error e, qs) →
      execute_tool env db name args = (toolErrPayload e, qs) ∧
        hasErrorKey (toolErrPayload e) = true) ∧
    (name ∉ registeredToolNames →
      execute_tool env db name args =
        (errDict ("알 수 없는 Tool: ".data ++ name.data), [])) := by
  constructor
  · intro e qs hd
    refine ⟨?_, rfl⟩
    simp only [execute_tool, hd]
  · intro hne
    have h1 : ¬ name = "get_stock_prices" := fun h => hne (by simp [registeredToolNames, h])
    have h2 : ¬ name = "get_financial_metrics" := fun h => hne (by simp [registeredToolNames, h])
    have h3 : ¬ name = "get_technical_signals" := fun h => hne (by simp [registeredToolNames, h])
    have h4 : ¬ name = "get_company_info" := fun h => hne (by simp [registeredToolNames, h])
    have h5 : ¬ name = "calculate_correlation" := fun h => hne (by simp [registeredToolNames, h])
    have h6 : ¬ name = "get_stocks_by_sector" := fun h => hne (by simp [registeredToolNames, h])
    have h7 : ¬ name = "calculate_portfolio_performance" :=
      fun h => hne (by simp [registeredToolNames, h])
    simp only [execute_tool, dispatch_tool, if_neg h1, if_neg h2, if_neg h3, if_neg h4,
      if_neg h5, if_neg h6, if_neg h7]

/-- Witness for C4: a store whose every access raises turns a
well-formed `get_company_info` call into the generic error payload with
its one-query trace, and an unregistered name yields the unknown-tool
payload. -/
theorem c4_tool_failure_contained_witness :
    execute_tool envStub dbDown "get_company_info" [("ticker", Json.str "005930".data)] =
      (toolErrPayload (.dbErr "connection refused".data), [.companies "005930"]) ∧
    execute_tool envStub dbDown "mystery_tool" [] =
      (errDict ("알 수 없는 Tool: ".data ++ "mystery_tool".data), []) :=
  ⟨((c4_tool_failure_contained envStub dbDown "get_company_info"
      [("ticker", Json.str "005930".data)]).1
      (.dbErr "connection refused".data) [.companies "005930"] rfl).1,
   (c4_tool_failure_contained envStub dbDown "mystery_tool" []).2 (by decide)⟩

/-! ## Claim C3: no schema validation before dispatch -/

/-- Claim C3 (corrected): the original claim fails — `execute_tool`
performs no schema validation and returns no typed `SchemaError`.  A
`get_stock_prices` call without its required `ticker` argument produces
the same generic `Tool 실행 오류` payload as any execution failure
(the `TypeError` from call binding is caught by the blanket
`except Exception`), while the spec-modelled `invoke` returns a typed
`SchemaError`. -/
theorem c3_schema_counterexample :
    execute_tool envStub dbDown "get_stock_prices" [] =
      (toolErrPayload (bindTypeError "get_stock_prices"), []) ∧
    (invoke_spec envStub dbDown "get_stock_prices" []).1 =
      SpecInvokeResult.schemaError "get_stock_prices" ["ticker"] ∧
    toolErrPayload (bindTypeError "get_stock_prices") =
      errDict ("Tool 실행 오류: ".data ++ pyExcStr (bindTypeError "get_stock_prices")) :=
  ⟨rfl, rfl, rfl⟩

/-- Claim C3 (amended): for every registered tool and every argument
mapping missing one of its required fields, the tool body never runs —
call binding fails first, the resulting `TypeError` is caught, and
`execute_tool` returns the generic error payload with an empty query
trace (zero side effects); the spec-modelled registry `invoke` instead
reports the missing keys as a typed `SchemaError`. -/
theorem c3_missing_required (env : Env) (db : Db) (name : String)
    (args : List (String × Json)) (hreg : name ∈ registeredToolNames)
    (r : String) (hr : r ∈ toolRequired name) (hmiss : args.lookup r = none) :
    execute_tool env db name args = (toolErrPayload (bindTypeError name), []) ∧
    invoke_spec env db name args =
      (.schemaError name ((toolRequired name).filter (fun k => (args.lookup k).isNone)), []) := by
  have hspec : invoke_spec env db name args =
      (.schemaError name ((toolRequired name).filter (fun k => (args.lookup k).isNone)), []) := by
    have hmem : r ∈ (toolRequired name).filter (fun k => (args.lookup k).isNone) :=
      List.mem_filter.mpr ⟨hr, by simp [hmiss]⟩
    have hne : (toolRequired name).filter (fun k => (args.lookup k).isNone) ≠ [] :=
      List.ne_nil_of_mem hmem
    simp only [invoke_spec]
    rw [if_pos hne]
  refine ⟨?_, hspec⟩
  simp only [registeredToolNames, List.mem_cons, List.not_mem_nil, or_false] at hreg
  rcases hreg with h | h | h | h | h | h | h <;> subst h <;>
    simp only [toolRequired, List.mem_singleton, List.mem_cons, List.not_mem_nil, or_false] at hr
  · subst hr
    have hb : bindOk ["ticker"] ["days"] args = false := by simp [bindOk, hmiss]
    simp [execute_tool, dispatch_tool, hb]
  · subst hr
    have hb : bindOk ["ticker"] ["quarters"] args = false := by simp [bindOk, hmiss]
    simp [execute_tool, dispatch_tool, hb]
  · subst hr
    have hb : bindOk ["ticker"] [] args = false := by simp [bindOk, hmiss]
    simp [execute_tool, dispatch_tool, hb]
  · subst hr
    have hb : bindOk ["ticker"] [] args = false := by simp [bindOk, hmiss]
    simp [execute_tool, dispatch_tool, hb]
  · subst hr
    have hb : bindOk ["tickers"] [] args = false := by simp [bindOk, hmiss]
    simp [execute_tool, dispatch_tool, hb]
  · subst hr
    have hb : bindOk ["sectors"] [] args = false := by simp [bindOk, hmiss]
    simp [execute_tool, dispatch_tool, hb]
  · rcases hr with hr | hr <;> subst hr
    · have hb : bindOk ["tickers", "weights"] [] args = false := by simp [bindOk, hmiss]
      simp [execute_tool, dispatch_tool, hb]
    · have hb : bindOk ["tickers", "weights"] [] args = false := by simp [bindOk, hmiss]
      simp [execute_tool, dispatch_tool, hb]

/-- Witness for the amended C3 theorem: `get_technical_signals` called
with an empty argument mapping. -/
theorem c3_missing_required_witness :
    execute_tool envStub dbDown "get_technical_signals" [] =
      (toolErrPayload (bindTypeError "get_technical_signals"), []) ∧
    invoke_spec envStub dbDown "get_technical_signals" [] =
      (.schemaError "get_technical_signals"
        ((toolRequired "get_technical_signals").filter
          (fun k => (([] : List (String × Json)).lookup k).isNone)), []) :=
  c3_missing_required envStub dbDown "get_technical_signals" [] (by decide) "ticker"
    (by decide) rfl

/-! ## Claim C8: price overwrite and share recomputation -/

/-- Claim C8 (corrected): the original claim fails for a kept entry with
`amount = 0` and a live positive price: `validation_node`'s per-entry
body (`validateStock`) overwrites `current_price` with the live price
but leaves shares untouched (here 7), although
`floor(amount / current_price) = 0` — the recomputation is guarded by
`amount > 0`, not only by `current_price > 0`. -/
theorem c8_shares_counterexample :
    validateStock [("A", { name := "N".data, sector := "S".data })] [("A", some 100)]
        { ticker := "A", name := [], sector := [], weight := 3, amount := 0,
          shares := 7, current_price := 50 } =
      some { ticker := "A", name := "N".data, sector := "S".data, weight := 3,
             amount := 0, shares := 7, current_price := 100 } ∧
    ((⌊(0 : ℚ) / 100⌋ : ℤ) : ℚ) = 0 ∧ (7 : ℚ) ≠ 0 := by
  refine ⟨by decide, by norm_num, by norm_num⟩

/-- Claim C8 (amended): for a kept entry (known ticker) — if a live
price `p` exists and `p > 0` and additionally the entry's
`amount > 0`, then `current_price` is overwritten with `p` and
`shares` is recomputed as `floor(amount / p)`; if no live price entry
exists for the ticker, `current_price` and `shares` are left exactly as
proposed (only `name`/`sector` change), with no exception. -/
theorem c8_price_update (ci : List (String × CompanyInfoV))
    (sp : List (String × Option ℚ)) (stock : AllocEntry) (info : CompanyInfoV)
    (hci : List.lookup stock.ticker ci = some info) :
    (∀ p : ℚ, List.lookup stock.ticker sp = some (some p) → 0 < p → 0 < stock.amount →
      validateStock ci sp stock =
        some { stock with
                 name := info.name
                 sector := info.sector
                 current_price := p
                 shares := ((⌊stock.amount / p⌋ : ℤ) : ℚ) }) ∧
    (List.lookup stock.ticker sp = none →
      validateStock ci sp stock =
        some { stock with name := info.name, sector := info.sector }) := by
  constructor
  · intro p hp hppos hamt
    have hpne : p ≠ 0 := ne_of_gt hppos
    simp only [validateStock, hci, hp]
    rw [if_pos hpne, if_pos ⟨hamt, hppos⟩]
  · intro hp
    simp only [validateStock, hci, hp]

/-- Witness for the amended C8 theorem: amount 1000 at live price 100
recomputes shares as `floor(1000/100) = 10`; with no live price the
proposed 7 shares at price 50 survive. -/
theorem c8_price_update_witness :
    validateStock [("A", { name := "N".data, sector := "S".data })] [("A", some 100)]
        { ticker := "A", name := [], sector := [], weight := 3, amount := 1000,
          shares := 7, current_price := 50 } =
      some { ticker := "A", name := "N".data, sector := "S".data, weight := 3,
             amount := 1000, shares := ((⌊(1000 : ℚ) / 100⌋ : ℤ) : ℚ),
             current_price := 100 } ∧
    ((⌊(1000 : ℚ) / 100⌋ : ℤ) : ℚ) = 10 ∧
    validateStock [("A", { name := "N".data, sector := "S".data })] []
        { ticker := "A", name := [], sector := [], weight := 3, amount := 1000,
          shares := 7, current_price := 50 } =
      some { ticker := "A", name := "N".data, sector := "S".data, weight := 3,
             amount := 1000, shares := 7, current_price := 50 } := by
  refine ⟨?_, by norm_num, ?_⟩
  · exact (c8_price_update [("A", { name := "N".data, sector := "S".data })]
      [("A", some 100)]
      { ticker := "A", name := [], sector := [], weight := 3, amount := 1000,
        shares := 7, current_price := 50 }
      { name := "N".data, sector := "S".data } rfl).1 100 rfl (by norm_num) (by norm_num)
  · exact (c8_price_update [("A", { name := "N".data, sector := "S".data })] []
      { ticker := "A", name := [], sector := [], weight := 3, amount := 1000,
        shares := 7, current_price := 50 }
      { name := "N".data, sector := "S".data } rfl).2 rfl

/-! ## Claim C2: validator drop/overwrite/renormalize -/

theorem validateStock_spec {ci : List (String × CompanyInfoV)}
    {sp : List (String × Option ℚ)} {stock e : AllocEntry}
    (h : validateStock ci sp stock = some e) :
    ∃ info, List.lookup stock.ticker ci = some info ∧ e.ticker = stock.ticker ∧
      e.name = info.name ∧ e.sector = info.sector ∧ e.weight = stock.weight := by
  rw [validateStock.eq_def] at h
  cases hci : List.lookup stock.ticker ci with
  | none => rw [hci] at h; simp at h
  | some info =>
    rw [hci] at h
    refine ⟨info, rfl, ?_⟩
    cases hsp : List.lookup stock.ticker sp with
    | none =>
      rw [hsp] at h
      simp at h
      subst h
      simp
    | some po =>
      cases po with
      | none =>
        rw [hsp] at h
        simp at h
        subst h
        simp
      | some p =>
        rw [hsp] at h
        simp only [] at h
        split_ifs at h <;> (simp at h; subst h; simp)

theorem sumWeights_rescale (l : List AllocEntry) (c : ℚ) :
    sumWeights (l.map (fun s => { s with weight := s.weight / c })) = sumWeights l / c := by
  induction l with
  | nil => simp [sumWeights]
  | cons x t IH =>
    simp only [sumWeights, List.map_cons, List.sum_cons] at IH ⊢
    rw [add_div, IH]

/-- Claim C2 (corrected): the original claim fails when the surviving
weights sum to 0 — one known-ticker entry proposed with weight 0 is
kept (identity overwritten), no renormalization happens (`total > 0`
fails), and the output is a nonempty list whose weights sum to 0, far
outside the 0.05 tolerance around 1. -/
theorem c2_validation_counterexample :
    validation_node [("A", { name := "N".data, sector := "S".data })] []
        [{ ticker := "A", name := [], sector := [], weight := 0, amount := 0,
           shares := 0, current_price := 0 }] =
      [{ ticker := "A", name := "N".data, sector := "S".data, weight := 0, amount := 0,
         shares := 0, current_price := 0 }] ∧
    sumWeights [{ ticker := "A", name := "N".data, sector := "S".data, weight := 0,
                  amount := 0, shares := 0, current_price := (0 : ℚ) }] = 0 ∧
    ¬ |(0 : ℚ) - 1| ≤ 0.05 := by
  refine ⟨?_, by norm_num [sumWeights], by norm_num⟩
  have h1 : List.filterMap (validateStock [("A", { name := "N".data, sector := "S".data })] [])
      [{ ticker := "A", name := [], sector := [], weight := 0, amount := 0,
         shares := 0, current_price := 0 }] =
      [{ ticker := "A", name := "N".data, sector := "S".data, weight := 0, amount := 0,
         shares := 0, current_price := 0 }] := rfl
  simp only [validation_node, h1]
  norm_num [sumWeights]

/-- Claim C2 (amended): whenever the surviving (post-drop) weights have
a positive sum, `validation_node` keeps only entries whose ticker is in
the authoritative lookup, overwrites every kept entry's `name` and
`sector` with the authoritative values, and the output weights sum to
within 0.05 of 1 (exactly 1 after proportional renormalization when the
surviving total deviated by more than 0.05). -/
theorem c2_validation (ci : List (String × CompanyInfoV))
    (sp : List (String × Option ℚ)) (portfolio : List AllocEntry)
    (hpos : 0 < sumWeights (portfolio.filterMap (validateStock ci sp))) :
    (∀ e ∈ validation_node ci sp portfolio,
      ∃ info, List.lookup e.ticker ci = some info ∧
        e.name = info.name ∧ e.sector = info.sector) ∧
    |sumWeights (validation_node ci sp portfolio) - 1| ≤ 0.05 := by
  have hmem0 : ∀ e ∈ portfolio.filterMap (validateStock ci sp),
      ∃ info, List.lookup e.ticker ci = some info ∧
        e.name = info.name ∧ e.sector = info.sector := by
    intro e he
    obtain ⟨stock, _, hvs⟩ := List.mem_filterMap.mp he
    obtain ⟨info, hinfo, ht, hn, hsec, _⟩ := validateStock_spec hvs
    exact ⟨info, ht ▸ hinfo, hn, hsec⟩
  simp only [validation_node]
  by_cases hdev : |sumWeights (portfolio.filterMap (validateStock ci sp)) - 1| > 0.05
  · rw [if_pos hdev, if_pos hpos]
    constructor
    · intro e he
      obtain ⟨e0, he0, rfl⟩ := List.mem_map.mp he
      obtain ⟨info, hinfo, hn, hsec⟩ := hmem0 e0 he0
      exact ⟨info, hinfo, hn, hsec⟩
    · rw [sumWeights_rescale, div_self (ne_of_gt hpos)]
      norm_num
  · rw [if_neg hdev]
    exact ⟨hmem0, le_of_not_lt hdev⟩

/-- Witness for the amended C2 theorem: the spec example — weights
0.6 (known ticker) and 0.4 (unknown ticker) validate to a single entry
renormalized to weight 1. -/
theorem c2_validation_witness :
    (∀ e ∈ validation_node ciA [] pfExample,
      ∃ info, List.lookup e.ticker ciA = some info ∧
        e.name = info.name ∧ e.sector = info.sector) ∧
    |sumWeights (validation_node ciA [] pfExample) - 1| ≤ 0.05 :=
  c2_validation ciA [] pfExample (by
    have h1 : pfExample.filterMap (validateStock ciA []) =
        [{ ticker := "A", name := "N".data, sector := "S".data, weight := 0.6, amount := 0,
           shares := 0, current_price := 0 }] := rfl
    rw [h1]
    norm_num [sumWeights])

/-! ## Claim C9: score bounds -/

theorem roundHalfEven_nonneg {x : ℚ} (h : 0 ≤ x) : 0 ≤ roundHalfEven x := by
  unfold roundHalfEven
  split_ifs with h1 h2
  · exact Int.floor_nonneg.mpr h
  · have := Int.floor_nonneg.mpr h
    omega
  · apply Int.floor_nonneg.mpr
    linarith

theorem roundHalfEven_le {x : ℚ} {B : ℤ} (h : x ≤ B) : roundHalfEven x ≤ B := by
  unfold roundHalfEven
  split_ifs with h1 h2
  · exact le_trans (Int.floor_le_floor h) (le_of_eq (Int.floor_intCast B))
  · have hx : (⌊x⌋ : ℚ) = x - 1/2 := by linarith
    have hlt : (⌊x⌋ : ℚ) < (B : ℚ) := by rw [hx]; linarith
    have hlt2 : ⌊x⌋ < B := by exact_mod_cast hlt
    omega
  · have h3 : ⌊x + 1/2⌋ < B + 1 := by
      apply Int.floor_lt.mpr
      push_cast
      linarith
    omega

theorem pyRound_bounds {q : ℚ} (nd : Nat) (h0 : 0 ≤ q) (h1 : q ≤ 100) :
    0 ≤ pyRound q nd ∧ pyRound q nd ≤ 100 := by
  unfold pyRound
  have hpow : (0 : ℚ) < 10 ^ nd := by positivity
  have hx0 : 0 ≤ q * 10 ^ nd := by positivity
  have hxB : q * 10 ^ nd ≤ ((100 * 10 ^ nd : ℤ) : ℚ) := by
    push_cast
    nlinarith
  have hr0 := roundHalfEven_nonneg hx0
  have hrB := roundHalfEven_le hxB
  constructor
  · apply div_nonneg _ (le_of_lt hpow)
    exact_mod_cast hr0
  · rw [div_le_iff₀ hpow]
    calc ((roundHalfEven (q * 10 ^ nd) : ℤ) : ℚ)
        ≤ ((100 * 10 ^ nd : ℤ) : ℚ) := by exact_mod_cast hrB
      _ = 100 * 10 ^ nd := by push_cast; ring

theorem blend4_bounds (s1 s2 s3 s4 : ℚ) (h1a : 0 ≤ s1) (h1b : s1 ≤ 100)
    (h2a : 0 ≤ s2) (h2b : s2 ≤ 100) (h3a : 0 ≤ s3) (h3b : s3 ≤ 100)
    (h4a : 0 ≤ s4) (h4b : s4 ≤ 100) :
    0 ≤ s1 * 0.3 + s2 * 0.2 + s3 * 0.3 + s4 * 0.2 ∧
      s1 * 0.3 + s2 * 0.2 + s3 * 0.3 + s4 * 0.2 ≤ 100 := by
  constructor <;> nlinarith

theorem blend3_bounds (s1 s2 s3 : ℚ) (h1a : 0 ≤ s1) (h1b : s1 ≤ 100)
    (h2a : 0 ≤ s2) (h2b : s2 ≤ 100) (h3a : 0 ≤ s3) (h3b : s3 ≤ 50) :
    0 ≤ s1 * 0.4 + s2 * 0.4 + s3 * 0.2 ∧ s1 * 0.4 + s2 * 0.4 + s3 * 0.2 ≤ 100 := by
  constructor <;> nlinarith

theorem financialScoreRaw_bounds (roeRaw opmRaw debtRatio revGrowthRaw : ℚ)
    (hd : 0 ≤ debtRatio) :
    0 ≤ financialScoreRaw roeRaw opmRaw debtRatio revGrowthRaw ∧
      financialScoreRaw roeRaw opmRaw debtRatio revGrowthRaw ≤ 100 := by
  simp only [financialScoreRaw]
  apply blend4_bounds
  · split_ifs with h
    · exact le_min (by linarith) (by norm_num)
    · exact le_refl 0
  · split_ifs with h
    · exact min_le_right _ _
    · norm_num
  · split_ifs with h
    · exact le_min (by linarith) (by norm_num)
    · exact le_refl 0
  · split_ifs with h
    · exact min_le_right _ _
    · norm_num
  · exact le_max_right _ _
  · exact max_le (by linarith) (by norm_num)
  · exact le_min (le_max_right _ _) (by norm_num)
  · exact min_le_right _ _

theorem dataAnalysisScoreRaw_bounds (rsi momRaw vol : ℚ) (hv : 0 ≤ vol) :
    0 ≤ dataAnalysisScoreRaw rsi momRaw vol ∧ dataAnalysisScoreRaw rsi momRaw vol ≤ 100 := by
  simp only [dataAnalysisScoreRaw]
  apply blend3_bounds
  · split_ifs <;> norm_num
  · split_ifs <;> norm_num
  · exact le_min (le_max_right _ _) (by norm_num)
  · exact min_le_right _ _
  · exact le_max_right _ _
  · exact max_le (by linarith) (by norm_num)

/-- Claim C9 (corrected): the original claim fails for a row with a
negative `debt_ratio`: `get_financial_metrics` on such a row reports
`financial_score = 330`, outside `[0, 100]` — the `debt_score` term
`max(100 - debt_ratio, 0)` is unbounded above. -/
theorem c9_score_counterexample :
    ∃ fs, (get_financial_metrics_fn dbNeg "X" 4).1 = .ok (.obj fs) ∧
      jget fs "financial_score".data =
        some (.num (pyRound (financialScoreRaw 0 0 (-1000) 0) 1)) ∧
      pyRound (financialScoreRaw 0 0 (-1000) 0) 1 = 330 ∧ ¬ (330 : ℚ) ≤ 100 := by
  refine ⟨_, rfl, rfl, ?_, by norm_num⟩
  norm_num [financialScoreRaw, pyRound, roundHalfEven]

/-- Claim C9 (amended): for every database row whose `debt_ratio` is
nonnegative (financial side) and whose `vol_20d` is nonnegative
(technical side), the `financial_score` reported by
`get_financial_metrics` and the `data_analysis_score` reported by
`get_technical_signals` lie in `[0, 100]`. -/
theorem c9_score_bounds (db : Db) (ticker : String) (quarters : Int)
    (frow : FinRow) (frest : List FinRow) (srow : SigRow) (srest : List SigRow)
    (hf : db.finMetrics ticker quarters = .ok (frow :: frest))
    (hs : db.signalsLatest ticker = .ok (srow :: srest))
    (hd : 0 ≤ toFloat frow.debt_ratio) (hv : 0 ≤ toFloat srow.vol_20d) :
    ∃ ffs sfs,
      (get_financial_metrics_fn db ticker quarters).1 = .ok (.obj ffs) ∧
      (get_technical_signals_fn db ticker).1 = .ok (.obj sfs) ∧
      ∃ fscore sscore,
        jget ffs "financial_score".data = some (.num fscore) ∧
        jget sfs "data_analysis_score".data = some (.num sscore) ∧
        0 ≤ fscore ∧ fscore ≤ 100 ∧ 0 ≤ sscore ∧ sscore ≤ 100 := by
  have hfb := financialScoreRaw_bounds (toFloat frow.roe) (toFloat frow.opm)
    (toFloat frow.debt_ratio) (toFloat frow.rev_growth_yoy) hd
  have hsb := dataAnalysisScoreRaw_bounds (toFloat srow.rsi14) (toFloat srow.momentum_20d)
    (toFloat srow.vol_20d) hv
  have hfr := pyRound_bounds 1 hfb.1 hfb.2
  have hsr := pyRound_bounds 1 hsb.1 hsb.2
  refine ⟨[("ticker".data, .str ticker.data),
    ("roe".data, .num (pyRound (toFloat frow.roe * 100) 2)),
    ("opm".data, .num (pyRound (toFloat frow.opm * 100) 2)),
    ("debt_ratio".data, .num (pyRound (toFloat frow.debt_ratio) 2)),
    ("revenue_growth_yoy".data, .num (pyRound (toFloat frow.rev_growth_yoy * 100) 2)),
    ("financial_score".data, .num (pyRound (financialScoreRaw (toFloat frow.roe)
      (toFloat frow.opm) (toFloat frow.debt_ratio) (toFloat frow.rev_growth_yoy)) 1))],
    [("ticker".data, .str ticker.data),
    ("ma20".data, .num (pyRound (toFloat srow.ma20) 2)),
    ("ma60".data, .num (pyRound (toFloat srow.ma60) 2)),
    ("rsi14".data, .num (pyRound (toFloat srow.rsi14) 2)),
    ("atr14".data, .num (pyRound (toFloat srow.atr14) 2)),
    ("momentum_20d".data, .num (pyRound (toFloat srow.momentum_20d * 100) 2)),
    ("vol_20d".data, .num (pyRound (toFloat srow.vol_20d) 4)),
    ("data_analysis_score".data, .num (pyRound (dataAnalysisScoreRaw (toFloat srow.rsi14)
      (toFloat srow.momentum_20d) (toFloat srow.vol_20d)) 1)),
    ("signal".data, .str (if dataAnalysisScoreRaw (toFloat srow.rsi14)
        (toFloat srow.momentum_20d) (toFloat srow.vol_20d) > 60 then "강세".data
      else if dataAnalysisScoreRaw (toFloat srow.rsi14) (toFloat srow.momentum_20d)
        (toFloat srow.vol_20d) < 40 then "약세".data else "중립".data))],
    ?_, ?_,
    pyRound (financialScoreRaw (toFloat frow.roe) (toFloat frow.opm)
      (toFloat frow.debt_ratio) (toFloat frow.rev_growth_yoy)) 1,
    pyRound (dataAnalysisScoreRaw (toFloat srow.rsi14) (toFloat srow.momentum_20d)
      (toFloat srow.vol_20d)) 1,
    ?_, ?_, hfr.1, hfr.2, hsr.1, hsr.2⟩
  · simp only [get_financial_metrics_fn, hf]
  · simp only [get_technical_signals_fn, hs]
  · simp [jget]
  · simp [jget]

/-- Witness for the amended C9 theorem on a well-behaved store row. -/
theorem c9_score_bounds_witness :
    ∃ ffs sfs,
      (get_financial_metrics_fn dbRows "005930" 4).1 = .ok (.obj ffs) ∧
      (get_technical_signals_fn dbRows "005930").1 = .ok (.obj sfs) ∧
      ∃ fscore sscore,
        jget ffs "financial_score".data = some (.num fscore) ∧
        jget sfs "data_analysis_score".data = some (.num sscore) ∧
        0 ≤ fscore ∧ fscore ≤ 100 ∧ 0 ≤ sscore ∧ sscore ≤ 100 :=
  c9_score_bounds dbRows "005930" 4 frowFx [] srowFx [] rfl rfl
    (by norm_num [toFloat, frowFx]) (by norm_num [toFloat, srowFx])

/-! ## Claim C1: the iteration bound of the agent loop -/

theorem runLoopAux_llmCalls_le (env : Env) (db : Db) (client : ModelClient)
    (maxIter : Nat) : ∀ (fuel it calls : Nat) (msgs : List Msg),
    (runLoopAux env db client maxIter fuel it calls msgs).llmCalls ≤ calls + fuel := by
  intro fuel
  induction fuel with
  | zero =>
    intro it calls msgs
    rw [runLoopAux.eq_def]
    simp
  | succ f IH =>
    intro it calls msgs
    rw [runLoopAux.eq_def]
    cases hc : client msgs with
    | raise e =>
      simp [hc]
    | reply content tcs =>
      by_cases ht : tcs.isEmpty
      · simp [hc, ht]
      · simp only [hc, ht, Bool.false_eq_true, if_false]
        have := IH (it + 1) (calls + 1)
          (msgs ++ .assistant content tcs :: tcs.map (toolMsgOf env db (it + 1)))
        omega

theorem runLoopAux_forced (env : Env) (db : Db) (client : ModelClient) (maxIter : Nat)
    (hcl : ∀ msgs, ∃ c tc tcs, client msgs = .reply c (tc :: tcs)) :
    ∀ (fuel it calls : Nat) (msgs : List Msg),
    (runLoopAux env db client maxIter fuel it calls msgs).success = false ∧
    (runLoopAux env db client maxIter fuel it calls msgs).iterations = it + fuel ∧
    (runLoopAux env db client maxIter fuel it calls msgs).llmCalls = calls + fuel ∧
    (runLoopAux env db client maxIter fuel it calls msgs).error = some (forcedMsg maxIter) ∧
    (runLoopAux env db client maxIter fuel it calls msgs).finalReport = none := by
  intro fuel
  induction fuel with
  | zero =>
    intro it calls msgs
    rw [runLoopAux.eq_def]
    simp
  | succ f IH =>
    intro it calls msgs
    obtain ⟨c, tc, tcs, hc⟩ := hcl msgs
    rw [runLoopAux.eq_def]
    simp only [hc, List.isEmpty_cons, Bool.false_eq_true, if_false]
    obtain ⟨h1, h2, h3, h4, h5⟩ := IH (it + 1) (calls + 1)
      (msgs ++ .assistant c (tc :: tcs) :: (tc :: tcs).map (toolMsgOf env db (it + 1)))
    exact ⟨h1, by rw [h2]; omega, by rw [h3]; omega, h4, h5⟩

/-- Claim C1: whenever the pre-loop context construction succeeds, the
agent run returns normally (no exception), invokes the model client at
most `max_iterations` times, and — for a client that proposes a tool
call on every invocation — makes exactly `max_iterations` rounds and
returns the forced-termination result. -/
theorem c1_loop_bound (env : Env) (db : Db) (client : ModelClient) (budget : Int)
    (targets : InvestmentTargets) (riskProfile investmentPeriod additionalPrompt : List Char)
    (maxIterations : Nat) (ctx : List Char)
    (hctx : initialContext env db targets = .ok ctx) :
    ∃ r, run_portfolio_agent env db client budget targets riskProfile investmentPeriod
        additionalPrompt maxIterations = .ok r ∧
      r.llmCalls ≤ maxIterations ∧
      ((∀ msgs, ∃ c tc tcs, client msgs = .reply c (tc :: tcs)) →
        r.success = false ∧ r.iterations = maxIterations ∧ r.llmCalls = maxIterations ∧
        r.error = some (forcedMsg maxIterations) ∧ r.finalReport = none) := by
  refine ⟨runLoopAux env db client maxIterations maxIterations 0 0
    [Msg.user (env.systemPromptText budget (targetsJson targets) riskProfile
        investmentPeriod additionalPrompt ++ "\n\n".data ++ ctx ++
      "\n\n위 조건으로 포트폴리오를 분석해주세요.".data)], ?_, ?_, ?_⟩
  · simp only [run_portfolio_agent, hctx]
  · have := runLoopAux_llmCalls_le env db client maxIterations maxIterations 0 0
      [Msg.user (env.systemPromptText budget (targetsJson targets) riskProfile
          investmentPeriod additionalPrompt ++ "\n\n".data ++ ctx ++
        "\n\n위 조건으로 포트폴리오를 분석해주세요.".data)]
    omega
  · intro hcl
    obtain ⟨h1, h2, h3, h4, h5⟩ := runLoopAux_forced env db client maxIterations hcl
      maxIterations 0 0
      [Msg.user (env.systemPromptText budget (targetsJson targets) riskProfile
          investmentPeriod additionalPrompt ++ "\n\n".data ++ ctx ++
        "\n\n위 조건으로 포트폴리오를 분석해주세요.".data)]
    exact ⟨h1, by omega, by omega, h4, h5⟩

/-- Witness for C1: a two-iteration run against a client that always
asks for a `get_company_info` tool call. -/
theorem c1_loop_bound_witness :
    ∃ r, run_portfolio_agent envStub dbDown clientAlwaysTool 0
        { sectors := none, tickers := none } [] [] [] 2 = .ok r ∧
      r.llmCalls ≤ 2 ∧
      ((∀ msgs, ∃ c tc tcs, clientAlwaysTool msgs = .reply c (tc :: tcs)) →
        r.success = false ∧ r.iterations = 2 ∧ r.llmCalls = 2 ∧
        r.error = some (forcedMsg 2) ∧ r.finalReport = none) :=
  c1_loop_bound envStub dbDown clientAlwaysTool 0 { sectors := none, tickers := none }
    [] [] [] 2 "**사전 정보 :**\n\n".data rfl

/-! ## Claim C6: the two terminal states downstream -/

/-- Claim C6 (corrected): the original claim fails — the terminal state
is not used only for diagnostics.  Two agent results carrying the same
report and iteration count, one in the success state and one in the
forced state, are processed differently by the endpoint: the success
result becomes a JSON response, the forced result an HTTP 500 error. -/
theorem c6_terminal_divergence :
    isJsonResponse (analyze_portfolio envStub rSuccessFx) = true ∧
    isHttpError (analyze_portfolio envStub rForcedFx) = true ∧
    rSuccessFx.finalReport = rForcedFx.finalReport ∧
    rSuccessFx.iterations = rForcedFx.iterations :=
  ⟨rfl, rfl, rfl, rfl⟩

/-- Claim C6 (amended): a forced termination (`success = False`) always
makes the endpoint raise HTTP 500 carrying the loop's error text, never
a JSON response — the terminal state decides the downstream path. -/
theorem c6_forced_http_error (env : Env) (r : AgentResult) (hr : r.success = false) :
    analyze_portfolio env r =
      .httpError 500 ("서버 오류: 500: ".data ++ (r.error.getD "알 수 없는 오류".data)) ∧
    isHttpError (analyze_portfolio env r) = true := by
  have h : analyze_portfolio env r =
      .httpError 500 ("서버 오류: 500: ".data ++ (r.error.getD "알 수 없는 오류".data)) := by
    simp only [analyze_portfolio, hr, Bool.false_eq_true, if_false]
  exact ⟨h, by rw [h]; rfl⟩

/-- Witness for the amended C6 theorem on the forced fixture result. -/
theorem c6_forced_http_error_witness :
    analyze_portfolio envStub rForcedFx =
      .httpError 500 ("서버 오류: 500: ".data ++ (rForcedFx.error.getD "알 수 없는 오류".data)) ∧
    isHttpError (analyze_portfolio envStub rForcedFx) = true :=
  c6_forced_http_error envStub rForcedFx rfl
